import Mathlib

/-!
Verification of the Yedu study-library workflow (src/index.tsx).

A shallow embedding of the client-side workflow of the Yedu application:
the analysis-record data model, the generation / refinement / manual-edit
operations of the workflow controller, the localStorage persistence layer
(JSON serialization and parsing), title extraction, audio-upload validation
and the download operation.  Remote model calls are modelled by passing the
response as an explicit argument; the requests the code would send are
returned as data so that properties about them can be stated.
-/

namespace Yedu

/-- The `LibraryEntry` interface of src/index.tsx.  `visualTheme` and
`analysisLens` are string unions in TypeScript and are embedded as strings. -/
structure LibraryEntry where
  id : String
  title : String
  sourceText : String
  infographicHtml : String
  analysisLens : String
  customDirectives : String
  visualTheme : String
  createdAt : String
  refinementHistory : List String
deriving Repr, DecidableEq

/-- The `view` state: `'welcome' | 'infographic'`. -/
inductive View where
  | welcome
  | infographic
deriving Repr, DecidableEq

/-- The `ANALYSIS_LENSES` constant. -/
def ANALYSIS_LENSES : List String :=
  ["General Summary", "Halachic Structure & Process", "Philosophical Deep Dive",
   "Character & Narrative Analysis", "Compare & Contrast Viewpoints"]

/-- The `QUOTES` constant (loading-overlay quotes). -/
def QUOTES : List String :=
  ["Turn it, and turn it, for everything is in it. (Ben Bag Bag, Pirkei Avot 5:22)",
   "The world stands on three things: on Torah, on service, and on acts of loving-kindness. (Shimon Hatzadik, Pirkei Avot 1:2)",
   "The day is short, the work is great... It is not your duty to finish the work, but neither are you at liberty to neglect it. (Rabbi Tarfon, Pirkei Avot 2:15-16)",
   "Who is wise? He who learns from every man. (Ben Zoma, Pirkei Avot 4:1)"]

/-! ## JSON values and the persistence layer

`saveLibrary` persists the library with `JSON.stringify`, and the startup
effect reads it back with `JSON.parse`.  Both are platform primitives and are
modelled here at the character level: a printer specialised to the
`LibraryEntry[]` type (`JSON.stringify` serialises an object literal's
properties in declaration order, escaping `"`, `\` and control characters),
and a generic parser for the JSON fragment consisting of strings, arrays and
objects — the only JSON shapes the application ever stores.  Number, boolean
and null leaves (never produced by `saveLibrary`) are not modelled; a stored
text using them fails to parse here, which coincides with the claim-relevant
observable (the library is not replaced) on every input the claims mention. -/

inductive JValue where
  | jstr : List Char → JValue
  | jarr : List JValue → JValue
  | jobj : List (List Char × JValue) → JValue
deriving Repr

/-- Lower-case hex digit, as emitted by `JSON.stringify` in `\u00XX` escapes. -/
def hexDigitChar (n : Nat) : Char :=
  if n < 10 then Char.ofNat ('0'.toNat + n) else Char.ofNat ('a'.toNat + n - 10)

/-- The escaping `JSON.stringify` applies to one character of a string. -/
def escapeChar (c : Char) : List Char :=
  if c = '"' then ['\\', '"']
  else if c = '\\' then ['\\', '\\']
  else if c = '\x08' then ['\\', 'b']
  else if c = '\t' then ['\\', 't']
  else if c = '\n' then ['\\', 'n']
  else if c = '\x0c' then ['\\', 'f']
  else if c = '\r' then ['\\', 'r']
  else if c.toNat < 32 then
    ['\\', 'u', '0', '0', hexDigitChar (c.toNat / 16), hexDigitChar (c.toNat % 16)]
  else [c]

def escapeString : List Char → List Char
  | [] => []
  | c :: cs => escapeChar c ++ escapeString cs

/-- A JSON string token: `"` + escaped body + `"`. -/
def printString (s : List Char) : List Char :=
  '"' :: (escapeString s ++ ['"'])

def commaSepStrings : List String → List Char
  | [] => []
  | [x] => printString x.data
  | x :: y :: t => printString x.data ++ ',' :: commaSepStrings (y :: t)

/-- A JSON array of strings, as `JSON.stringify` prints one. -/
def printStrArray (xs : List String) : List Char :=
  '[' :: (commaSepStrings xs ++ [']'])

/-- One `"key":"value"` member with a string value. -/
def printMemberStr (k : String) (v : String) : List Char :=
  printString k.data ++ ':' :: printString v.data

/-- `JSON.stringify` of one `LibraryEntry`: an object literal whose members
appear in the declaration order of the interface. -/
def printEntry (e : LibraryEntry) : List Char :=
  '\x7b' :: (printMemberStr ("id") e.id ++ ',' ::
    (printMemberStr ("title") e.title ++ ',' ::
      (printMemberStr ("sourceText") e.sourceText ++ ',' ::
        (printMemberStr ("infographicHtml") e.infographicHtml ++ ',' ::
          (printMemberStr ("analysisLens") e.analysisLens ++ ',' ::
            (printMemberStr ("customDirectives") e.customDirectives ++ ',' ::
              (printMemberStr ("visualTheme") e.visualTheme ++ ',' ::
                (printMemberStr ("createdAt") e.createdAt ++ ',' ::
                  (printString ("refinementHistory").data ++ ':' ::
                    (printStrArray e.refinementHistory ++ ['\x7d']))))))))))

def commaSepEntries : List LibraryEntry → List Char
  | [] => []
  | [e] => printEntry e
  | e :: f :: t => printEntry e ++ ',' :: commaSepEntries (f :: t)

/-- `JSON.stringify(newLibrary)`: the whole persisted text. -/
def printLibrary (l : List LibraryEntry) : List Char :=
  '[' :: (commaSepEntries l ++ [']'])

/-- The JSON value denoted by the printed form of a `LibraryEntry` string field. -/
def jStrOf (s : String) : JValue := JValue.jstr s.data

/-- The JSON value denoted by the printed form of a `LibraryEntry`. -/
def jEntry (e : LibraryEntry) : JValue :=
  JValue.jobj [(("id").data, jStrOf e.id), (("title").data, jStrOf e.title),
    (("sourceText").data, jStrOf e.sourceText),
    (("infographicHtml").data, jStrOf e.infographicHtml),
    (("analysisLens").data, jStrOf e.analysisLens),
    (("customDirectives").data, jStrOf e.customDirectives),
    (("visualTheme").data, jStrOf e.visualTheme),
    (("createdAt").data, jStrOf e.createdAt),
    (("refinementHistory").data, JValue.jarr (e.refinementHistory.map jStrOf))]

def jLibrary (l : List LibraryEntry) : JValue := JValue.jarr (l.map jEntry)

/-! ### The parser (`JSON.parse`) -/

/-- JSON insignificant whitespace. -/
def skipWs : List Char → List Char
  | [] => []
  | c :: cs => if c = ' ' ∨ c = '\t' ∨ c = '\n' ∨ c = '\r' then skipWs cs else c :: cs

def hexVal (c : Char) : Option Nat :=
  if '0' ≤ c ∧ c ≤ '9' then some (c.toNat - '0'.toNat)
  else if 'a' ≤ c ∧ c ≤ 'f' then some (c.toNat - 'a'.toNat + 10)
  else if 'A' ≤ c ∧ c ≤ 'F' then some (c.toNat - 'A'.toNat + 10)
  else none

/-- Parse the body of a JSON string after its opening quote, handling the
escape sequences of the JSON grammar and rejecting raw control characters. -/
def parseStringBody : List Char → Option (List Char × List Char)
  | [] => none
  | c :: rest =>
    if c = '"' then some ([], rest)
    else if c = '\\' then
      match rest with
      | [] => none
      | e :: rest2 =>
        if e = '"' then (parseStringBody rest2).map (fun p => ('"' :: p.1, p.2))
        else if e = '\\' then (parseStringBody rest2).map (fun p => ('\\' :: p.1, p.2))
        else if e = '/' then (parseStringBody rest2).map (fun p => ('/' :: p.1, p.2))
        else if e = 'b' then (parseStringBody rest2).map (fun p => ('\x08' :: p.1, p.2))
        else if e = 'f' then (parseStringBody rest2).map (fun p => ('\x0c' :: p.1, p.2))
        else if e = 'n' then (parseStringBody rest2).map (fun p => ('\n' :: p.1, p.2))
        else if e = 'r' then (parseStringBody rest2).map (fun p => ('\r' :: p.1, p.2))
        else if e = 't' then (parseStringBody rest2).map (fun p => ('\t' :: p.1, p.2))
        else if e = 'u' then
          match rest2 with
          | h1 :: h2 :: h3 :: h4 :: rest3 =>
            match hexVal h1, hexVal h2, hexVal h3, hexVal h4 with
            | some a, some b, some c2, some d =>
              (parseStringBody rest3).map
                (fun p => (Char.ofNat (4096 * a + 256 * b + 16 * c2 + d) :: p.1, p.2))
            | _, _, _, _ => none
          | _ => none
        else none
    else if c.toNat < 32 then none
    else (parseStringBody rest).map (fun p => (c :: p.1, p.2))

/-- Parsing mode: a single value, the items of a non-empty array, or the
members of a non-empty object. -/
inductive JMode where
  | value
  | items
  | members
deriving Repr, DecidableEq

/-- Fueled recursive-descent parser for the modelled JSON fragment.  In
`items` mode the result is the `jarr` of the remaining items, in `members`
mode the `jobj` of the remaining members. -/
def parseCore : Nat → JMode → List Char → Option (JValue × List Char)
  | 0, _, _ => none
  | fuel+1, JMode.value, s =>
    match skipWs s with
    | [] => none
    | c :: rest =>
      if c = '"' then (parseStringBody rest).map (fun p => (JValue.jstr p.1, p.2))
      else if c = '[' then
        match skipWs rest with
        | [] => parseCore fuel JMode.items rest
        | d :: r2 =>
          if d = ']' then some (JValue.jarr [], r2) else parseCore fuel JMode.items rest
      else if c = '\x7b' then
        match skipWs rest with
        | [] => parseCore fuel JMode.members rest
        | d :: r2 =>
          if d = '\x7d' then some (JValue.jobj [], r2) else parseCore fuel JMode.members rest
      else none
  | fuel+1, JMode.items, s =>
    match parseCore fuel JMode.value s with
    | none => none
    | some (v, r) =>
      match skipWs r with
      | [] => none
      | d :: r2 =>
        if d = ']' then some (JValue.jarr [v], r2)
        else if d = ',' then
          match parseCore fuel JMode.items r2 with
          | some (JValue.jarr vs, r3) => some (JValue.jarr (v :: vs), r3)
          | _ => none
        else none
  | fuel+1, JMode.members, s =>
    match skipWs s with
    | [] => none
    | c :: rest =>
      if c = '"' then
        match parseStringBody rest with
        | none => none
        | some (k, r) =>
          match skipWs r with
          | [] => none
          | d :: r2 =>
            if d = ':' then
              match parseCore fuel JMode.value r2 with
              | none => none
              | some (v, r3) =>
                match skipWs r3 with
                | [] => none
                | d2 :: r4 =>
                  if d2 = '\x7d' then some (JValue.jobj [(k, v)], r4)
                  else if d2 = ',' then
                    match parseCore fuel JMode.members r4 with
                    | some (JValue.jobj kvs, r5) => some (JValue.jobj ((k, v) :: kvs), r5)
                    | _ => none
                  else none
            else none
      else none

/-- `JSON.parse`: parse a complete text; anything but trailing whitespace
after the value is an error, modelled as `none` (the thrown `SyntaxError`). -/
def parseJson (s : List Char) : Option JValue :=
  match parseCore (s.length + 1) JMode.value s with
  | some (v, r) => if skipWs r = [] then some v else none
  | none => none

/-! ### Reading the parsed value back as records

The TypeScript code assigns the result of `JSON.parse` to the library state
without any shape validation.  The typed model reads the parsed JSON value
back into `LibraryEntry` records by property name; on every text produced by
`saveLibrary` this reading is exact.  A text that parses as JSON but does not
have the record shape has no typed counterpart and is modelled as leaving the
library untouched — no claim exercises that path. -/

def lookupKey : List (List Char × JValue) → List Char → Option JValue
  | [], _ => none
  | (k, v) :: rest, key => if k = key then some v else lookupKey rest key

def getStrField (kvs : List (List Char × JValue)) (key : List Char) : Option String :=
  match lookupKey kvs key with
  | some (JValue.jstr s) => some (String.mk s)
  | _ => none

def decodeStrings : List JValue → Option (List String)
  | [] => some []
  | JValue.jstr s :: rest => (decodeStrings rest).map (fun l => String.mk s :: l)
  | _ => none

def decodeEntry : JValue → Option LibraryEntry
  | JValue.jobj kvs =>
    match getStrField kvs (("id").data), getStrField kvs (("title").data),
      getStrField kvs (("sourceText").data), getStrField kvs (("infographicHtml").data),
      getStrField kvs (("analysisLens").data), getStrField kvs (("customDirectives").data),
      getStrField kvs (("visualTheme").data), getStrField kvs (("createdAt").data),
      lookupKey kvs (("refinementHistory").data) with
    | some i, some t, some st, some ih, some al, some cd, some vt, some ca,
      some (JValue.jarr hist) =>
      (decodeStrings hist).map (fun h =>
        { id := i, title := t, sourceText := st, infographicHtml := ih,
          analysisLens := al, customDirectives := cd, visualTheme := vt,
          createdAt := ca, refinementHistory := h })
    | _, _, _, _, _, _, _, _, _ => none
  | _ => none

def decodeEntries : List JValue → Option (List LibraryEntry)
  | [] => some []
  | v :: rest =>
    match decodeEntry v, decodeEntries rest with
    | some e, some l => some (e :: l)
    | _, _ => none

def decodeLibraryJ : JValue → Option (List LibraryEntry)
  | JValue.jarr vs => decodeEntries vs
  | _ => none

/-! ## Timestamps

`new Date().toISOString()` supplies both `id` and `createdAt`.  Modelled from
the platform `Date.prototype.toISOString` for the post-1970, pre-10000 UTC
range: a pure function of the epoch-millisecond count, using the standard
civil-from-days conversion. -/

def padNum (width n : Nat) : String :=
  let s := toString n
  String.mk (List.replicate (width - s.length) '0') ++ s

def civilFromDays (days : Nat) : Nat × Nat × Nat :=
  let z := days + 719468
  let era := z / 146097
  let doe := z % 146097
  let yoe := (doe - doe / 1460 + doe / 36524 - doe / 146096) / 365
  let y := yoe + era * 400
  let doy := doe - (365 * yoe + yoe / 4 - yoe / 100)
  let mp := (5 * doy + 2) / 153
  let d := doy - (153 * mp + 2) / 5 + 1
  let m := if mp < 10 then mp + 3 else mp - 9
  (if m ≤ 2 then y + 1 else y, m, d)

def toISOString (ms : Nat) : String :=
  let msPart := ms % 1000
  let totalSec := ms / 1000
  let sec := totalSec % 60
  let minute := totalSec / 60 % 60
  let hour := totalSec / 3600 % 24
  let days := totalSec / 86400
  let ymd := civilFromDays days
  padNum 4 ymd.1 ++ ("-") ++ padNum 2 ymd.2.1 ++ ("-") ++ padNum 2 ymd.2.2 ++ ("T") ++
    padNum 2 hour ++ (":") ++ padNum 2 minute ++ (":") ++ padNum 2 sec ++ (".") ++
    padNum 3 msPart ++ ("Z")

/-! ## Title extraction

`htmlOutput.match(/<h1[^>]*>(.*?)<\/h1>/i)`: the leftmost position where the
pattern matches, `[^>]*` running to the first `>` after the open tag, the
lazy group stopping at the first `</h1>`, `.` not matching line terminators
(`\n`, `\r`, U+2028, U+2029), the letter `h` case-insensitive. -/

/-- Does the text start with `</h1>` (case-insensitive)?  Returns the rest. -/
def isCloseTagAt : List Char → Option (List Char)
  | a :: b :: c :: d :: e :: rest =>
    if a = '<' ∧ b = '/' ∧ (c = 'h' ∨ c = 'H') ∧ d = '1' ∧ e = '>' then some rest else none
  | _ => none

/-- Characters matched by `.` without the `s` flag. -/
def isDotChar (c : Char) : Bool :=
  ¬ (c = '\n' ∨ c = '\r' ∨ c = '\u2028' ∨ c = '\u2029')

/-- Scan for the closing `</h1>`, collecting the lazy group `(.*?)`. -/
def findH1Close : List Char → Option (List Char × List Char)
  | [] => none
  | c :: cs =>
    match isCloseTagAt (c :: cs) with
    | some rest => some ([], rest)
    | none =>
      if isDotChar c then (findH1Close cs).map (fun p => (c :: p.1, p.2)) else none

/-- Try to match the whole pattern at this position. -/
def tryMatchH1At (s : List Char) : Option (List Char) :=
  match s with
  | a :: b :: c :: rest =>
    if a = '<' ∧ (b = 'h' ∨ b = 'H') ∧ c = '1' then
      match rest.dropWhile (fun x => x != '>') with
      | '>' :: r2 => (findH1Close r2).map (fun p => p.1)
      | _ => none
    else none
  | _ => none

/-- The capture group of the leftmost match of the title regex, if any. -/
def firstH1Match : List Char → Option (List Char)
  | [] => none
  | c :: cs =>
    match tryMatchH1At (c :: cs) with
    | some inner => some inner
    | none => firstH1Match cs

/-- Title derivation in `handleGenerate`: first `<h1>` capture or the fixed
fallback. -/
def extractTitle (html : String) : String :=
  match firstH1Match html.data with
  | some inner => String.mk inner
  | none => "Untitled Analysis"

/-! ## Prompt construction (`getSystemPrompt`) -/

def getSystemPrompt (lens directives theme task : String) : String :=
  "\n            Role: You are an AI Scholarly Architect and Data Visualization expert. Your domain is the synthesis of complex textual and spoken-word content into structured, insightful, and aesthetically refined academic summaries.\n            Core Task: " ++
  task ++
  ", strictly adhering to the user\x27s specified [Analysis Lens] and [Custom Directives]. Your output must be a single, self-contained, interactive HTML file that functions as a rich, infographic-style summary.\n            Input:\n            - A full-text transcript.\n            - An [Analysis Lens] selection from the user: \"" ++
  lens ++
  "\"\n            - Optional [Custom Directives] from the user: \"" ++
  directives ++
  "\"\n            - A [Visual Theme] selection: \"" ++
  theme ++
  "\"\n            Output Specification: A Single, Well-Formed HTML File.\n            Methodology & Required Content Structure:\n            1.  Deep Analysis: First, synthesize the transcript\x27s core theme, arguments, terminology, and logical flow, filtering everything through the prism of the user\x27s chosen [Analysis Lens] and [Custom Directives].\n            2.  Infographic Blueprint (Semantic HTML): Structure the output using the following sections. Omit any section that is not relevant to the source material.\n                A. Main Title (<h1>): A concise, descriptive title reflecting the lesson\x27s core topic.\n                B. Core Thesis (<p class=\"intro\">): A highlighted paragraph stating the central argument or takeaway.\n                C. Key Concepts & Terminology (<section class=\"concepts-grid\">): Present foundational ideas in a grid of \"cards.\" Each card must contain a relevant emoji/icon, the concept\x27s name (<h3>), and a clear definition (<p>). Use a <table> for direct comparisons if central to the analysis.\n                D. Logical Flow / Schematic Diagram (<section class=\"flowchart\">): If the content describes a process, hierarchy, or argument structure, represent it schematically using nested lists, text, and Unicode arrows (↓, →, ↳).\n                E. Supporting Examples & Sources (<section class=\"examples\">): Extract concrete examples.\n                F. Questions for Further Inquiry (<section class=\"further-inquiry\">): Generate 2-3 probing, open-ended questions that challenge the user to think more deeply about the material\x27s implications.\n                G. Concluding Summary (<p class=\"conclusion\">): A final paragraph that recaps the main points and reinforces the core thesis.\n            3.  HTML Formatting, Styling, and Interactivity:\n                - Single File Output: All content must be in one HTML file. All CSS must be contained within a single <style> block in the <head>. DO NOT use external links for anything.\n                - Bespoke Visual Themes: Apply internal CSS that corresponds to the user-selected [Visual Theme].\n                  - Manuscript Theme: Use sepia/parchment backgrounds (#f5f1e8), dark brown text (#4a2c2a), serif fonts (\x27Frank Ruhl Libre\x27), and subtle gold/amber accents.\n                  - Modern Scholar Theme: Use a clean off-white (#f8f9fa) or dark charcoal (#212529) background, sans-serif fonts (\x27Heebo\x27), and one bold, primary color for headings and borders.\n                - Direct Editability: Ensure all primary text containers (h1-h6, p, li, th, td) have the contenteditable=\"true\" attribute.\n            4.  Trust & Verification Footer:\n                - Conclude with a <footer> containing a Confidence Score (e.g., \"Confidence: High\") and disclaimers for any ambiguities.\n            Final Constraint: The output language must strictly match the primary language of the input transcript.\n        "

/-! ## Application state and workflow operations

React state is threaded explicitly.  A remote call is modelled by returning
the request that would be sent (`none` when validation rejects before any
call) and taking the outcome as an argument; `alert` messages are collected
in a list. -/

inductive ModelResult where
  | fail : String → ModelResult
  | ok : Option String → ModelResult
deriving Repr, DecidableEq

structure GenRequest where
  modelName : String
  promptText : String
  transcriptText : String
deriving Repr, DecidableEq

structure TranscribeRequest where
  modelName : String
  mimeType : String
  base64Data : String
  promptText : String
deriving Repr, DecidableEq

structure AudioFile where
  mimeType : String
  base64Data : String
deriving Repr, DecidableEq

structure AppState where
  view : View
  isLoading : Bool
  loadingQuote : String
  currentAnalysis : Option LibraryEntry
  sourceText : Option String
  analysisLens : String
  customDirectives : String
  visualTheme : String
  library : List LibraryEntry
  isSidebarOpen : Bool
  isRefineModalOpen : Bool
  refineDirectives : String
  storage : Option (List Char)
deriving Repr, DecidableEq

/-- `saveLibrary`: set the in-memory library and persist its
`JSON.stringify` into the `yedu-library` slot (a write error is only logged
and leaves no observable state). -/
def saveLibraryS (st : AppState) (newLibrary : List LibraryEntry) : AppState :=
  { st with library := newLibrary, storage := some (printLibrary newLibrary) }

def validationMsg : String := "Please provide some text to analyze."

def genericGenerateErrorMsg : String :=
  "An error occurred while analyzing the text. Please try again."

def emptyResponseMsg : String :=
  "The AI model returned an empty response. This could be due to content safety filters or an issue with the prompt. Please try modifying your input or directives."

/-- `textOverride ?? (isRefinement ? currentAnalysis?.sourceText : sourceText)`. -/
def resolvedText (st : AppState) (isRefinement : Bool) (textOverride : Option String) :
    Option String :=
  match textOverride with
  | some t => some t
  | none =>
    if isRefinement then st.currentAnalysis.map LibraryEntry.sourceText else st.sourceText

/-- `handleGenerate(isRefinement, textOverride)`.  `resp` is the outcome of
the `generateContent` call; `quoteIdx` the random quote draw; `nowId` and
`nowCreated` the two `new Date()` readings (epoch ms). -/
def handleGenerate (st : AppState) (isRefinement : Bool) (textOverride : Option String)
    (resp : ModelResult) (quoteIdx : Nat) (nowId nowCreated : Nat) :
    AppState × Option GenRequest × List String :=
  match resolvedText st isRefinement textOverride with
  | none => (st, none, [validationMsg])
  | some txt =>
    if txt = "" then (st, none, [validationMsg])
    else
      let st1 := { st with
        isLoading := true, loadingQuote := QUOTES.getD (quoteIdx % QUOTES.length) "" }
      let directives := if isRefinement then st.refineDirectives else st.customDirectives
      let task :=
        if isRefinement then ("Refine the previous analysis based on the new directive")
        else ("Analyze the provided transcript")
      let req : GenRequest :=
        { modelName := "gemini-2.5-pro",
          promptText := getSystemPrompt st.analysisLens directives st.visualTheme task,
          transcriptText := "Transcript to analyze: \n\n" ++ txt }
      match resp with
      | ModelResult.fail msg =>
        ({ st1 with isLoading := false, isRefineModalOpen := false, refineDirectives := "" },
          some req, [if msg = "" then genericGenerateErrorMsg else msg])
      | ModelResult.ok htmlOut =>
        match htmlOut with
        | none =>
          ({ st1 with isLoading := false, isRefineModalOpen := false, refineDirectives := "" },
            some req, [emptyResponseMsg])
        | some html =>
          if html = "" then
            ({ st1 with
                isLoading := false, isRefineModalOpen := false, refineDirectives := "" },
              some req, [emptyResponseMsg])
          else
            let title := extractTitle html
            match isRefinement, st.currentAnalysis with
            | true, some ca =>
              let updated : LibraryEntry :=
                { ca with
                  infographicHtml := html, title := title,
                  refinementHistory := ca.refinementHistory ++ [directives] }
              let newLib :=
                st.library.map (fun item => if item.id = ca.id then updated else item)
              ({ saveLibraryS { st1 with currentAnalysis := some updated } newLib with
                  isLoading := false, isRefineModalOpen := false, refineDirectives := "" },
                some req, [])
            | _, _ =>
              let newEntry : LibraryEntry :=
                { id := toISOString nowId, title := title, sourceText := txt,
                  infographicHtml := html, analysisLens := st.analysisLens,
                  customDirectives := st.customDirectives, visualTheme := st.visualTheme,
                  createdAt := toISOString nowCreated, refinementHistory := [] }
              ({ saveLibraryS { st1 with currentAnalysis := some newEntry }
                    (newEntry :: st.library) with
                  view := View.infographic, isLoading := false, isRefineModalOpen := false,
                  refineDirectives := "" },
                some req, [])

def supportedTypes : List String := ["audio/mpeg", "audio/mp3", "audio/x-m4a", "audio/mp4"]

def transcribingQuote : String := "Transcribing your audio, one moment..."

def transcribePromptText : String :=
  "Please transcribe the following audio recording into clean, coherent text. Remove any filler words, stutters, or false starts. The output should be a single block of text representing the spoken content."

/-- `handleFileSelect`: MIME validation, transcription request, and the
chained generation (`handleGenerate(false, transcription)`).  The outer
`catch` sees only transcription failures — `handleGenerate` handles its own. -/
def handleFileSelect (st : AppState) (file : AudioFile) (tResp : ModelResult)
    (genResp : ModelResult) (quoteIdx nowId nowCreated : Nat) :
    AppState × Option TranscribeRequest × Option GenRequest × List String :=
  if file.mimeType ∈ supportedTypes then
    let st1 := { st with isLoading := true, loadingQuote := transcribingQuote }
    let req : TranscribeRequest :=
      { modelName := "gemini-2.5-pro", mimeType := file.mimeType,
        base64Data := file.base64Data, promptText := transcribePromptText }
    match tResp with
    | ModelResult.fail msg =>
      ({ st1 with isLoading := false }, some req, none,
        ["An error occurred during transcription or analysis: " ++
          (if msg = "" then ("Please try again.") else msg)])
    | ModelResult.ok transcription =>
      let res := handleGenerate st1 false transcription genResp quoteIdx nowId nowCreated
      ({ res.1 with sourceText := transcription }, some req, res.2.1, res.2.2)
  else
    (st, none, none,
      ["Unsupported file type: " ++ file.mimeType ++ ". Please upload an MP3 or M4A file."])

/-- `handleSaveChanges`: replace the current record's HTML with the edited
DOM content and persist by id-replacement.  `editedHtml` is
`infographicRef.current.innerHTML` (`none` when the ref is null). -/
def handleSaveChanges (st : AppState) (editedHtml : Option String) :
    AppState × List String :=
  match st.currentAnalysis, editedHtml with
  | some ca, some newHtml =>
    let updated : LibraryEntry := { ca with infographicHtml := newHtml }
    let newLib := st.library.map (fun item => if item.id = ca.id then updated else item)
    (saveLibraryS { st with currentAnalysis := some updated } newLib,
      ["Changes saved to library."])
  | _, _ => (st, [])

/-- `currentAnalysis.title.replace(/ /g, '_')`. -/
def sanitizeTitle (t : String) : String :=
  String.mk (t.data.map (fun c => if c = ' ' then '_' else c))

/-- `handleDownloadHtml`: the downloaded blob content and file name. -/
def handleDownloadHtml (st : AppState) : Option (String × String) :=
  st.currentAnalysis.map (fun ca => (ca.infographicHtml, sanitizeTitle ca.title ++ (".html")))

/-- `loadAnalysis`: select a record from the library. -/
def loadAnalysis (st : AppState) (entry : LibraryEntry) : AppState :=
  { st with
    currentAnalysis := some entry, sourceText := some entry.sourceText,
    analysisLens := entry.analysisLens, customDirectives := entry.customDirectives,
    visualTheme := entry.visualTheme, view := View.infographic, isSidebarOpen := false }

/-- `startNewAnalysis`. -/
def startNewAnalysis (st : AppState) : AppState :=
  { st with
    currentAnalysis := none, sourceText := some "", customDirectives := "",
    view := View.welcome }

/-- The `useState` initial values. -/
def initialAppState (stored : Option (List Char)) : AppState :=
  { view := View.welcome, isLoading := false, loadingQuote := "", currentAnalysis := none,
    sourceText := some "", analysisLens := "General Summary", customDirectives := "",
    visualTheme := "Modern Scholar", library := [], isSidebarOpen := false,
    isRefineModalOpen := false, refineDirectives := "", storage := stored }

/-- The startup effect: read `yedu-library`, `JSON.parse` it inside
`try/catch` (a parse failure is caught and logged), and set the library.
The parsed-but-not-record-shaped case has no typed counterpart and leaves
the default; no claim touches it. -/
def appStartup (stored : Option (List Char)) : AppState :=
  match stored with
  | none => initialAppState none
  | some s =>
    match parseJson s with
    | none => initialAppState (some s)
    | some j =>
      match decodeLibraryJ j with
      | some lib => { initialAppState (some s) with library := lib }
      | none => initialAppState (some s)

/-! ## Interaction sequences used by the invariant claims -/

/-- One refinement interaction: open the modal, type the directive, submit. -/
structure RefineInput where
  directive : String
  resp : ModelResult
  quoteIdx : Nat
  nowId : Nat
  nowCreated : Nat
deriving Repr

def refineOnce (st : AppState) (inp : RefineInput) :
    AppState × Option GenRequest × List String :=
  handleGenerate { st with isRefineModalOpen := true, refineDirectives := inp.directive }
    true none inp.resp inp.quoteIdx inp.nowId inp.nowCreated

def refineMany (st : AppState) : List RefineInput → AppState
  | [] => st
  | inp :: rest => refineMany (refineOnce st inp).1 rest

/-- One initial-generation interaction: type the text, press generate. -/
structure GenInput where
  text : String
  resp : ModelResult
  quoteIdx : Nat
  nowId : Nat
  nowCreated : Nat
deriving Repr

def generateOnce (st : AppState) (inp : GenInput) :
    AppState × Option GenRequest × List String :=
  handleGenerate { st with sourceText := some inp.text } false none inp.resp inp.quoteIdx
    inp.nowId inp.nowCreated

def generateMany (st : AppState) : List GenInput → AppState
  | [] => st
  | inp :: rest => generateMany (generateOnce st inp).1 rest

/-- A generation interaction that succeeds: non-empty text, non-empty text
response. -/
def GoodGen (inp : GenInput) : Prop :=
  inp.text ≠ "" ∧ ∃ h, inp.resp = ModelResult.ok (some h) ∧ h ≠ ""

def genHtml (inp : GenInput) : String :=
  match inp.resp with
  | ModelResult.ok (some h) => h
  | _ => ""

/-- The record a successful initial generation creates. -/
def createdEntry (lens dirs theme : String) (inp : GenInput) : LibraryEntry :=
  { id := toISOString inp.nowId, title := extractTitle (genHtml inp),
    sourceText := inp.text, infographicHtml := genHtml inp, analysisLens := lens,
    customDirectives := dirs, visualTheme := theme,
    createdAt := toISOString inp.nowCreated, refinementHistory := [] }

/-! ## Spec-side definitions used to state the original wording of the
claims that the code deviates from (C8 and C9). -/

/-- Modelled from the claim wording of C8: the inner content of the first
`<h1>` tag of the document (first case-insensitive h1 open tag, attributes
running to the next `>`, the inner content everything up to the next
case-insensitive `</h1>`, line terminators included), fallback otherwise. -/
def specFindClose : List Char → Option (List Char)
  | [] => none
  | c :: cs =>
    match isCloseTagAt (c :: cs) with
    | some _ => some []
    | none => (specFindClose cs).map (fun p => c :: p)

def specTryAt (s : List Char) : Option (List Char) :=
  match s with
  | a :: b :: c :: rest =>
    if a = '<' ∧ (b = 'h' ∨ b = 'H') ∧ c = '1' then
      match rest.dropWhile (fun x => x != '>') with
      | '>' :: r2 => specFindClose r2
      | _ => none
    else none
  | _ => none

def specFirstH1 : List Char → Option (List Char)
  | [] => none
  | c :: cs =>
    match specTryAt (c :: cs) with
    | some inner => some inner
    | none => specFirstH1 cs

def specTitleC8 (html : String) : String :=
  match specFirstH1 html.data with
  | some inner => String.mk inner
  | none => "Untitled Analysis"

/-- Modelled from the claim wording of C9: every character of the produced
file name is alphanumeric-safe — alphanumeric, the replacement character
`_`, or the extension dot. -/
def C9SanitizedName (name : String) : Prop :=
  ∀ c ∈ name.data, c.isAlphanum = true ∨ c = '_' ∨ c = '.'

/-! ## Fixture states and records used by the concrete witnesses -/

def refinedEntry (ca : LibraryEntry) (html directive : String) : LibraryEntry :=
  { ca with
    infographicHtml := html, title := extractTitle html,
    refinementHistory := ca.refinementHistory ++ [directive] }

/-- Fixtures for witnesses. -/
def sampleEntry : LibraryEntry :=
  { id := "2024-01-01T00:00:00.000Z", title := "T", sourceText := "hello",
    infographicHtml := "<h1>T</h1>", analysisLens := "General Summary",
    customDirectives := "", visualTheme := "Modern Scholar",
    createdAt := "2024-01-01T00:00:00.000Z", refinementHistory := ["fix typo"] }

def sampleState : AppState :=
  { initialAppState none with
    currentAnalysis := some sampleEntry, library := [sampleEntry], sourceText := some "hello" }

def sampleRefine : RefineInput :=
  { directive := "add a table", resp := ModelResult.ok (some "<h1>T2</h1>"), quoteIdx := 0,
    nowId := 5, nowCreated := 6 }

def sampleReq : GenRequest :=
  { modelName := "gemini-2.5-pro",
    promptText := getSystemPrompt ("General Summary") ("add a table") ("Modern Scholar")
      ("Refine the previous analysis based on the new directive"),
    transcriptText := "Transcript to analyze: \n\nhello" }

def c9Entry : LibraryEntry :=
  { id := "x", title := "a/b", sourceText := "s", infographicHtml := "<h1>x</h1>",
    analysisLens := "General Summary", customDirectives := "",
    visualTheme := "Modern Scholar", createdAt := "x", refinementHistory := [] }

def c9State : AppState := { initialAppState none with currentAnalysis := some c9Entry }

/-- C3 witness -/
def c3State : AppState := { initialAppState none with sourceText := some ("some text") }

def c3Req : GenRequest :=
  { modelName := "gemini-2.5-pro",
    promptText := getSystemPrompt ("General Summary") ("") ("Modern Scholar")
      ("Analyze the provided transcript"),
    transcriptText := "Transcript to analyze: \n\nsome text" }

/-- C5 witness -/
def gi1 : GenInput :=
  { text := "t one", resp := ModelResult.ok (some "<h1>A</h1>"), quoteIdx := 0,
    nowId := 1000, nowCreated := 1001 }

def gi2 : GenInput :=
  { text := "t two", resp := ModelResult.ok (some "<h1>B</h1>"), quoteIdx := 1,
    nowId := 1000, nowCreated := 1002 }

def entryNeed (e : LibraryEntry) : Nat := 2 * e.refinementHistory.length + 12

def entriesNeed : List LibraryEntry → Nat
  | [] => 0
  | e :: t => entryNeed e + 1 + entriesNeed t

/-! ## Theorems -/

theorem refineOnce_success (st : AppState) (inp : RefineInput) (ca : LibraryEntry) (h0 : String)
    (hca : st.currentAnalysis = some ca) (hsrc : ca.sourceText ≠ "")
    (hresp : inp.resp = ModelResult.ok (some h0)) (hh : h0 ≠ "") :
    refineOnce st inp =
      ({ st with
          isLoading := false, isRefineModalOpen := false, refineDirectives := "",
          loadingQuote := QUOTES.getD (inp.quoteIdx % QUOTES.length) "",
          currentAnalysis := some (refinedEntry ca h0 inp.directive),
          library := st.library.map
            (fun item => if item.id = ca.id then refinedEntry ca h0 inp.directive else item),
          storage := some (printLibrary (st.library.map
            (fun item => if item.id = ca.id then refinedEntry ca h0 inp.directive else item))) },
        some { modelName := "gemini-2.5-pro",
               promptText := getSystemPrompt st.analysisLens inp.directive st.visualTheme
                 ("Refine the previous analysis based on the new directive"),
               transcriptText := "Transcript to analyze: \n\n" ++ ca.sourceText },
        []) := by
  simp only [refineOnce, handleGenerate, resolvedText, hca, hresp, refinedEntry, saveLibraryS]
  simp only [if_true, Option.map_some']
  rw [if_neg hsrc, if_neg hh]

theorem generateOnce_success (st : AppState) (inp : GenInput) (h0 : String)
    (ht : inp.text ≠ "") (hresp : inp.resp = ModelResult.ok (some h0)) (hh : h0 ≠ "") :
    generateOnce st inp =
      ({ st with
          sourceText := some inp.text,
          isLoading := false, isRefineModalOpen := false, refineDirectives := "",
          loadingQuote := QUOTES.getD (inp.quoteIdx % QUOTES.length) "",
          view := View.infographic,
          currentAnalysis :=
            some (createdEntry st.analysisLens st.customDirectives st.visualTheme inp),
          library :=
            createdEntry st.analysisLens st.customDirectives st.visualTheme inp :: st.library,
          storage := some (printLibrary
            (createdEntry st.analysisLens st.customDirectives st.visualTheme inp
              :: st.library)) },
        some { modelName := "gemini-2.5-pro",
               promptText := getSystemPrompt st.analysisLens st.customDirectives st.visualTheme
                 ("Analyze the provided transcript"),
               transcriptText := "Transcript to analyze: \n\n" ++ inp.text },
        []) := by
  simp only [generateOnce, handleGenerate, resolvedText, hresp, createdEntry, saveLibraryS,
    genHtml]
  simp only [Bool.false_eq_true, if_false, Option.map_some']
  rw [if_neg ht, if_neg hh]

theorem refineOnce_sourceText (st : AppState) (inp : RefineInput) :
    ((refineOnce st inp).1.currentAnalysis).map LibraryEntry.sourceText
      = st.currentAnalysis.map LibraryEntry.sourceText := by
  unfold refineOnce handleGenerate resolvedText
  rcases hca : st.currentAnalysis with _ | ca
  · simp [hca]
  · simp only [hca, Option.map_some', if_true]
    by_cases hsrc : ca.sourceText = ""
    · simp [hsrc]
    · rw [if_neg hsrc]
      rcases inp.resp with msg | ht
      · simp
      · rcases ht with _ | h
        · simp
        · by_cases hh : h = "" <;> simp [hh, saveLibraryS]

theorem refineMany_sourceText (st : AppState) (steps : List RefineInput) :
    ((refineMany st steps).currentAnalysis).map LibraryEntry.sourceText
      = st.currentAnalysis.map LibraryEntry.sourceText := by
  induction steps generalizing st with
  | nil => rfl
  | cons inp rest ih =>
    simpa [refineMany] using (ih (refineOnce st inp).1).trans (refineOnce_sourceText st inp)

theorem handleSaveChanges_sourceText (st : AppState) (e : Option String) :
    ((handleSaveChanges st e).1.currentAnalysis).map LibraryEntry.sourceText
      = st.currentAnalysis.map LibraryEntry.sourceText := by
  unfold handleSaveChanges
  rcases hca : st.currentAnalysis with _ | ca <;> rcases e with _ | html <;>
    simp [hca, saveLibraryS]

theorem refineOnce_request (st : AppState) (inp : RefineInput) (ca : LibraryEntry)
    (req : GenRequest) (hca : st.currentAnalysis = some ca)
    (hreq : (refineOnce st inp).2.1 = some req) :
    req.transcriptText = "Transcript to analyze: \n\n" ++ ca.sourceText := by
  unfold refineOnce handleGenerate resolvedText at hreq
  simp only [hca, Option.map_some', if_true] at hreq
  by_cases hsrc : ca.sourceText = ""
  · simp [hsrc] at hreq
  · rw [if_neg hsrc] at hreq
    rcases hr : inp.resp with msg | ht
    · simp only [hr] at hreq
      simp at hreq
      simp [← hreq]
    · rcases ht with _ | h
      · simp only [hr] at hreq
        simp at hreq
        simp [← hreq]
      · simp only [hr] at hreq
        by_cases hh : h = "" <;> simp [hh] at hreq <;> simp [← hreq]

theorem handleSaveChanges_success (st : AppState) (ca : LibraryEntry) (newHtml : String)
    (hca : st.currentAnalysis = some ca) :
    handleSaveChanges st (some newHtml) =
      (saveLibraryS { st with currentAnalysis := some { ca with infographicHtml := newHtml } }
        (st.library.map (fun item =>
          if item.id = ca.id then { ca with infographicHtml := newHtml } else item)),
       ["Changes saved to library."]) := by
  simp [handleSaveChanges, hca]

theorem generateMany_library (st : AppState) (inputs : List GenInput)
    (h : ∀ inp ∈ inputs, GoodGen inp) :
    (generateMany st inputs).library
      = (inputs.map (createdEntry st.analysisLens st.customDirectives st.visualTheme)).reverse
          ++ st.library := by
  induction inputs generalizing st with
  | nil => simp [generateMany]
  | cons inp rest ih =>
    obtain ⟨ht, h0, hresp, hh⟩ := h inp (by simp)
    have hstep := generateOnce_success st inp h0 ht hresp hh
    simp only [generateMany, hstep]
    rw [ih _ (fun i hi => h i (by simp [hi]))]
    simp [List.append_assoc]

/-- Claim C1: the transcript text a refinement sends to the model is built from the
current record's original `sourceText` (never the edited `infographicHtml`), and the
`sourceText` of the current record is unchanged by one refinement, by arbitrarily many
repeated refinements, and by a manual edit. -/
theorem claimC1_refinement_source_invariant
    (st : AppState) (inp : RefineInput) (steps : List RefineInput) (ca : LibraryEntry)
    (req : GenRequest) (editedHtml : Option String) :
    (st.currentAnalysis = some ca → (refineOnce st inp).2.1 = some req →
      req.transcriptText = "Transcript to analyze: \n\n" ++ ca.sourceText)
    ∧ ((refineOnce st inp).1.currentAnalysis).map LibraryEntry.sourceText
        = st.currentAnalysis.map LibraryEntry.sourceText
    ∧ ((refineMany st steps).currentAnalysis).map LibraryEntry.sourceText
        = st.currentAnalysis.map LibraryEntry.sourceText
    ∧ ((handleSaveChanges st editedHtml).1.currentAnalysis).map LibraryEntry.sourceText
        = st.currentAnalysis.map LibraryEntry.sourceText :=
  ⟨fun hca hreq => refineOnce_request st inp ca req hca hreq,
   refineOnce_sourceText st inp, refineMany_sourceText st steps,
   handleSaveChanges_sourceText st editedHtml⟩

theorem claimC1_witness :
    sampleState.currentAnalysis = some sampleEntry
    ∧ (refineOnce sampleState sampleRefine).2.1 = some sampleReq
    ∧ sampleReq.transcriptText = "Transcript to analyze: \n\n" ++ sampleEntry.sourceText
    ∧ ((refineMany sampleState [sampleRefine]).currentAnalysis).map LibraryEntry.sourceText
        = some ("hello") :=
  ⟨rfl, rfl,
   (claimC1_refinement_source_invariant sampleState sampleRefine [sampleRefine] sampleEntry
      sampleReq none).1 rfl rfl,
   ((claimC1_refinement_source_invariant sampleState sampleRefine [sampleRefine] sampleEntry
      sampleReq none).2.2.1).trans rfl⟩

theorem handleSaveChanges_none (st : AppState) : handleSaveChanges st none = (st, []) := by
  unfold handleSaveChanges
  rcases st.currentAnalysis <;> rfl

/-- Claim C2: a successful refinement of the current record makes its new
`refinementHistory` exactly the old one with the new directive appended; under the
reachable-state invariant that library entries sharing the current record's id carry
its history, no operation removes, truncates or reorders prior elements — refinement
either keeps an entry's history or appends one directive, and a manual edit keeps
every history. -/
theorem claimC2_history_append
    (st : AppState) (inp : RefineInput) (ca : LibraryEntry) (h0 : String) (e : Option String)
    (hca : st.currentAnalysis = some ca) (hsrc : ca.sourceText ≠ "")
    (hresp : inp.resp = ModelResult.ok (some h0)) (hh : h0 ≠ "")
    (hcons : ∀ item ∈ st.library, item.id = ca.id →
      item.refinementHistory = ca.refinementHistory) :
    ((refineOnce st inp).1.currentAnalysis).map LibraryEntry.refinementHistory
        = some (ca.refinementHistory ++ [inp.directive])
    ∧ (∀ (i : Nat) (old new : LibraryEntry), st.library[i]? = some old →
        ((refineOnce st inp).1.library)[i]? = some new →
        new.refinementHistory = old.refinementHistory
          ∨ new.refinementHistory = old.refinementHistory ++ [inp.directive])
    ∧ (∀ (i : Nat) (old new : LibraryEntry), st.library[i]? = some old →
        ((handleSaveChanges st e).1.library)[i]? = some new →
        new.refinementHistory = old.refinementHistory)
    ∧ ((handleSaveChanges st e).1.currentAnalysis).map LibraryEntry.refinementHistory
        = st.currentAnalysis.map LibraryEntry.refinementHistory := by
  have hr := refineOnce_success st inp ca h0 hca hsrc hresp hh
  refine ⟨by rw [hr]; rfl, ?_, ?_, ?_⟩
  · intro i old new hold hnew
    rw [hr] at hnew
    simp only [List.getElem?_map, hold, Option.map_some'] at hnew
    by_cases hid : old.id = ca.id
    · right
      rw [if_pos hid] at hnew
      injection hnew with hnew
      subst hnew
      simp [refinedEntry, hcons old (List.getElem?_mem hold) hid]
    · left
      rw [if_neg hid] at hnew
      injection hnew with hnew
      subst hnew
      rfl
  · intro i old new hold hnew
    rcases e with _ | html
    · rw [handleSaveChanges_none] at hnew
      rw [hold] at hnew
      injection hnew with hnew
      subst hnew
      rfl
    · rw [handleSaveChanges_success st ca html hca] at hnew
      simp only [saveLibraryS, List.getElem?_map, hold, Option.map_some'] at hnew
      by_cases hid : old.id = ca.id
      · rw [if_pos hid] at hnew
        injection hnew with hnew
        subst hnew
        simpa using (hcons old (List.getElem?_mem hold) hid).symm
      · rw [if_neg hid] at hnew
        injection hnew with hnew
        subst hnew
        rfl
  · rcases e with _ | html
    · rw [handleSaveChanges_none]
    · rw [handleSaveChanges_success st ca html hca]
      simp [saveLibraryS, hca]

/-- Claim C3: when the model response text is absent or empty and a generation request
was actually issued, the library (in memory and persisted) and the current record are
unchanged, the loading flag returns to idle, and the descriptive
`emptyResponseMsg` error is surfaced; no record is created. -/
theorem claimC3_empty_response (st : AppState) (isRef : Bool) (textOverride : Option String)
    (resp : ModelResult) (q t1 t2 : Nat) (req : GenRequest)
    (hresp : resp = ModelResult.ok none ∨ resp = ModelResult.ok (some ""))
    (hreq : (handleGenerate st isRef textOverride resp q t1 t2).2.1 = some req) :
    (handleGenerate st isRef textOverride resp q t1 t2).1.library = st.library
    ∧ (handleGenerate st isRef textOverride resp q t1 t2).1.storage = st.storage
    ∧ (handleGenerate st isRef textOverride resp q t1 t2).1.currentAnalysis
        = st.currentAnalysis
    ∧ (handleGenerate st isRef textOverride resp q t1 t2).1.isLoading = false
    ∧ (handleGenerate st isRef textOverride resp q t1 t2).2.2 = [emptyResponseMsg] := by
  rcases hres : resolvedText st isRef textOverride with _ | txt
  · unfold handleGenerate at hreq
    rw [hres] at hreq
    simp at hreq
  · by_cases htxt : txt = ""
    · unfold handleGenerate at hreq
      rw [hres] at hreq
      simp [htxt] at hreq
    · rcases hresp with rfl | rfl <;>
        (unfold handleGenerate; rw [hres]; simp [htxt])

/-- Claim C4: an uploaded file with a supported MIME type proceeds to a transcription
request; any other MIME type is rejected with an alert, no remote request, and a fully
unchanged state; a generation attempt with empty source text alerts, makes no request
and leaves the state unchanged. -/
theorem claimC4_validation (st : AppState) (file : AudioFile) (tResp genResp : ModelResult)
    (q t1 t2 : Nat) (resp : ModelResult) :
    (file.mimeType ∈ supportedTypes →
      (handleFileSelect st file tResp genResp q t1 t2).2.1
        = some { modelName := "gemini-2.5-pro", mimeType := file.mimeType,
                 base64Data := file.base64Data, promptText := transcribePromptText })
    ∧ (file.mimeType ∉ supportedTypes →
      handleFileSelect st file tResp genResp q t1 t2
        = (st, none, none,
            ["Unsupported file type: " ++ file.mimeType ++ ". Please upload an MP3 or M4A file."]))
    ∧ (st.sourceText = some "" →
      handleGenerate st false none resp q t1 t2 = (st, none, [validationMsg])) := by
  refine ⟨fun hsupp => ?_, fun hunsupp => ?_, fun hempty => ?_⟩
  · unfold handleFileSelect
    rw [if_pos hsupp]
    rcases tResp with msg | t <;> simp
  · unfold handleFileSelect
    rw [if_neg hunsupp]
  · unfold handleGenerate
    have : resolvedText st false none = some "" := by simp [resolvedText, hempty]
    rw [this]
    rfl

/-- Claim C5: after a sequence of successful initial generations the library equals the
created records, most recent first, prepended to the previous library; in particular
its first element is the most recently created record. -/
theorem claimC5_library_order (st : AppState) (inputs : List GenInput)
    (h : ∀ inp ∈ inputs, GoodGen inp) :
    (generateMany st inputs).library
      = (inputs.map (createdEntry st.analysisLens st.customDirectives st.visualTheme)).reverse
          ++ st.library
    ∧ (inputs ≠ [] → (generateMany st inputs).library.head?
        = (inputs.getLast?).map
            (createdEntry st.analysisLens st.customDirectives st.visualTheme)) := by
  refine ⟨generateMany_library st inputs h, fun hne => ?_⟩
  rw [generateMany_library st inputs h]
  rcases List.eq_nil_or_concat inputs with rfl | ⟨as, a, rfl⟩
  · exact absurd rfl hne
  · simp [List.getLast?_concat]

/-- Claim C10: a created record's `id` is the ISO-8601 millisecond timestamp of the
creation moment and `createdAt` an independently taken second timestamp, so two
records created in the same millisecond receive equal ids; the replace-by-id step of
refinement and of manual edit replaces every library entry whose id matches, not
necessarily exactly one. -/
theorem claimC10_id_semantics
    (st : AppState) (i1 i2 : GenInput) (inp : RefineInput) (ca : LibraryEntry)
    (h0 newHtml : String) :
    (GoodGen i1 →
      ((generateOnce st i1).1.currentAnalysis).map LibraryEntry.id
          = some (toISOString i1.nowId)
      ∧ ((generateOnce st i1).1.currentAnalysis).map LibraryEntry.createdAt
          = some (toISOString i1.nowCreated))
    ∧ (GoodGen i1 → GoodGen i2 → i1.nowId = i2.nowId →
        (generateMany st [i1, i2]).library.map LibraryEntry.id
          = toISOString i1.nowId :: toISOString i1.nowId :: st.library.map LibraryEntry.id)
    ∧ (st.currentAnalysis = some ca → ca.sourceText ≠ "" →
        inp.resp = ModelResult.ok (some h0) → h0 ≠ "" →
        ∀ (i : Nat) (old : LibraryEntry), st.library[i]? = some old →
          ((refineOnce st inp).1.library)[i]?
            = some (if old.id = ca.id then refinedEntry ca h0 inp.directive else old))
    ∧ (st.currentAnalysis = some ca →
        ∀ (i : Nat) (old : LibraryEntry), st.library[i]? = some old →
          ((handleSaveChanges st (some newHtml)).1.library)[i]?
            = some (if old.id = ca.id then { ca with infographicHtml := newHtml }
                    else old)) := by
  refine ⟨fun h1 => ?_, fun h1 h2 h12 => ?_, fun hca hsrc hresp hh i old hold => ?_,
    fun hca i old hold => ?_⟩
  · obtain ⟨ht, hh0, hrespg, hhne⟩ := h1
    rw [generateOnce_success st i1 hh0 ht hrespg hhne]
    exact ⟨rfl, rfl⟩
  · have hgood : ∀ x ∈ [i1, i2], GoodGen x := by
      intro x hx
      simp only [List.mem_cons, List.not_mem_nil, or_false] at hx
      rcases hx with rfl | rfl
      · exact h1
      · exact h2
    rw [generateMany_library st [i1, i2] hgood]
    simp [createdEntry, h12]
  · rw [refineOnce_success st inp ca h0 hca hsrc hresp hh]
    simp [List.getElem?_map, hold]
  · rw [handleSaveChanges_success st ca newHtml hca]
    simp [saveLibraryS, List.getElem?_map, hold]

/-- Claim C9 (amended): the download consists of exactly the current record's
`infographicHtml`, named by the title with every space replaced by an underscore (all
other characters kept verbatim, same length) plus the `.html` extension; the produced
name contains no spaces.  The original claim (all non-alphanumeric-safe characters
replaced) is false: only spaces are replaced — see the counterexample. -/
theorem claimC9_download (st : AppState) (ca : LibraryEntry)
    (hca : st.currentAnalysis = some ca) :
    handleDownloadHtml st = some (ca.infographicHtml, sanitizeTitle ca.title ++ (".html"))
    ∧ (sanitizeTitle ca.title).data
        = ca.title.data.map (fun c => if c = ' ' then '_' else c)
    ∧ (sanitizeTitle ca.title).data.length = ca.title.data.length
    ∧ (∀ c ∈ (sanitizeTitle ca.title).data, c ≠ ' ') := by
  refine ⟨by simp [handleDownloadHtml, hca], rfl, by simp [sanitizeTitle], ?_⟩
  intro c hc
  simp only [sanitizeTitle, List.mem_map] at hc
  obtain ⟨a, _, ha⟩ := hc
  by_cases h : a = ' '
  · rw [if_pos h] at ha
    rw [← ha]
    decide
  · rw [if_neg h] at ha
    subst ha
    exact h

theorem tryMatchH1At_ne (c : Char) (cs : List Char) (h : c ≠ '<') :
    tryMatchH1At (c :: cs) = none := by
  rcases cs with _ | ⟨b, _ | ⟨d, rest⟩⟩
  · rfl
  · rfl
  · simp [tryMatchH1At, h]

theorem isCloseTagAt_ne (c : Char) (cs : List Char) (h : c ≠ '<') :
    isCloseTagAt (c :: cs) = none := by
  rcases cs with _ | ⟨b, _ | ⟨d, _ | ⟨e, _ | ⟨f, rest⟩⟩⟩⟩
  · rfl
  · rfl
  · rfl
  · rfl
  · simp [isCloseTagAt, h]

theorem findH1Close_clean (inner rest : List Char)
    (h : ∀ c ∈ inner, ¬(c = '<' ∨ c = '\n' ∨ c = '\r' ∨ c = '\u2028' ∨ c = '\u2029')) :
    findH1Close (inner ++ ('<' :: '/' :: 'h' :: '1' :: '>' :: rest)) = some (inner, rest) := by
  induction inner with
  | nil => simp [findH1Close, isCloseTagAt]
  | cons c cs ih =>
    have hc := h c (by simp)
    have hdot : isDotChar c = true := by
      simp only [isDotChar, decide_eq_true_eq]
      tauto
    have hne : c ≠ '<' := by tauto
    simp only [List.cons_append, findH1Close, isCloseTagAt_ne c _ hne, hdot, if_true]
    rw [List.append_eq, ih (fun x hx => h x (by simp [hx]))]
    rfl

theorem firstH1Match_append (pre tail : List Char) (h : ∀ c ∈ pre, c ≠ '<') :
    firstH1Match (pre ++ tail) = firstH1Match tail := by
  induction pre with
  | nil => rfl
  | cons c cs ih =>
    simp only [List.cons_append, firstH1Match, tryMatchH1At_ne c _ (h c (by simp))]
    exact ih (fun x hx => h x (by simp [hx]))

/-- Claim C8 (amended): the title is the capture of the first position where the title
regex matches — for a document whose first `<` opens a
single-line h1 element, the title is that element's inner content — and when the
pattern matches nowhere the fixed fallback title is used; extraction is a total
function, so malformed HTML cannot fail hard.  The original claim (inner content of
the first h1 element whenever one is present) fails when that element spans several
lines, because the dot of the regex does not match line terminators: see the
counterexample. -/
theorem claimC8_title (pre inner rest : String)
    (hpre : ∀ c ∈ pre.data, c ≠ '<')
    (hinner : ∀ c ∈ inner.data,
      ¬(c = '<' ∨ c = '\n' ∨ c = '\r' ∨ c = '\u2028' ∨ c = '\u2029')) :
    extractTitle (pre ++ ("<h1>") ++ inner ++ ("</h1>") ++ rest) = inner
    ∧ (∀ html : String, (∀ c ∈ html.data, c ≠ '<') →
        extractTitle html = "Untitled Analysis") := by
  constructor
  · unfold extractTitle
    have hdata : (pre ++ ("<h1>") ++ inner ++ ("</h1>") ++ rest).data
        = pre.data ++ ('<' :: 'h' :: '1' :: '>' :: (inner.data
            ++ ('<' :: '/' :: 'h' :: '1' :: '>' :: rest.data))) := by
      simp [String.data_append, List.append_assoc]
    rw [hdata, firstH1Match_append pre.data _ hpre]
    have hmatch : tryMatchH1At ('<' :: 'h' :: '1' :: '>' :: (inner.data
        ++ ('<' :: '/' :: 'h' :: '1' :: '>' :: rest.data)))
        = some inner.data := by
      simp only [tryMatchH1At]
      rw [if_pos (by simp)]
      have hdw : List.dropWhile (fun x => x != '>')
          ('>' :: (inner.data ++ ('<' :: '/' :: 'h' :: '1' :: '>' :: rest.data)))
          = '>' :: (inner.data ++ ('<' :: '/' :: 'h' :: '1' :: '>' :: rest.data)) := by
        simp [List.dropWhile]
      rw [hdw]
      show Option.map (fun p => p.1)
          (findH1Close (inner.data ++ ('<' :: '/' :: 'h' :: '1' :: '>' :: rest.data)))
        = some inner.data
      rw [findH1Close_clean inner.data rest.data hinner]
      rfl
    simp only [firstH1Match, hmatch]
  · intro html hh
    unfold extractTitle
    have := firstH1Match_append html.data [] hh
    rw [List.append_nil] at this
    rw [this]
    rfl

/-- Claim C7: when nothing is stored, or the stored text does not parse as JSON (the
thrown error is caught and only logged), the startup load leaves the library
empty; the load function is total, so no exception can propagate. -/
theorem claimC7_load_fallback (s : List Char) (hs : parseJson s = none) :
    (appStartup none).library = [] ∧ (appStartup (some s)).library = [] := by
  refine ⟨rfl, ?_⟩
  unfold appStartup
  dsimp only
  rw [hs]
  rfl

theorem claimC7_witness :
    parseJson (("this is not JSON").data) = none
    ∧ (appStartup (some (("this is not JSON").data))).library = [] :=
  ⟨rfl, (claimC7_load_fallback (("this is not JSON").data) rfl).2⟩

/-- Claim C8 counterexample: a document holding one h1 element whose inner content
spans two lines: the claim-side reading `specTitleC8` extracts that content, yet the
code falls back to the fixed title, so the claim as stated is false. -/
theorem claimC8_counterexample :
    extractTitle ("<h1>a\nb</h1>") = "Untitled Analysis"
    ∧ specTitleC8 ("<h1>a\nb</h1>") = "a\nb"
    ∧ extractTitle ("<h1>a\nb</h1>") ≠ specTitleC8 ("<h1>a\nb</h1>") := by
  refine ⟨rfl, rfl, ?_⟩
  decide

theorem claimC8_witness :
    extractTitle (("pre ") ++ ("<h1>") ++ ("My Title") ++ ("</h1>") ++ ("<p>x</p>"))
        = "My Title"
    ∧ extractTitle ("plain text") = "Untitled Analysis" :=
  ⟨(claimC8_title ("pre ") ("My Title") ("<p>x</p>") (by decide) (by decide)).1,
   (claimC8_title ("pre ") ("My Title") ("<p>x</p>") (by decide) (by decide)).2
     ("plain text") (by decide)⟩

/-- Claim C9 counterexample: a record titled `a/b` downloads as `a/b.html`, whose
name contains the non-alphanumeric-safe character `/` unreplaced, refuting the claim
that every such character is replaced. -/
theorem claimC9_counterexample :
    handleDownloadHtml c9State = some (("<h1>x</h1>"), ("a/b.html"))
    ∧ ¬ C9SanitizedName ("a/b.html") := by
  refine ⟨rfl, fun hcl => ?_⟩
  have := hcl '/' (by decide)
  revert this
  decide

theorem claimC9_witness :
    handleDownloadHtml sampleState
      = some (sampleEntry.infographicHtml, sanitizeTitle sampleEntry.title ++ (".html"))
    ∧ ∀ c ∈ (sanitizeTitle sampleEntry.title).data, c ≠ ' ' :=
  ⟨(claimC9_download sampleState sampleEntry rfl).1,
   (claimC9_download sampleState sampleEntry rfl).2.2.2⟩

/-- C2 witness -/
theorem claimC2_witness :
    ((refineOnce sampleState sampleRefine).1.currentAnalysis).map
        LibraryEntry.refinementHistory
      = some (["fix typo", "add a table"]) := by
  have hcons : ∀ item ∈ sampleState.library, item.id = sampleEntry.id →
      item.refinementHistory = sampleEntry.refinementHistory := by
    intro item hi _
    have : item = sampleEntry := by simpa [sampleState, initialAppState] using hi
    rw [this]
  exact ((claimC2_history_append sampleState sampleRefine sampleEntry ("<h1>T2</h1>") none
    rfl (by decide) rfl (by decide) hcons).1).trans rfl

theorem claimC3_witness :
    (handleGenerate c3State false none (ModelResult.ok none) 0 0 0).2.1 = some c3Req
    ∧ (handleGenerate c3State false none (ModelResult.ok none) 0 0 0).1.library = []
    ∧ (handleGenerate c3State false none (ModelResult.ok none) 0 0 0).1.isLoading = false
    ∧ (handleGenerate c3State false none (ModelResult.ok none) 0 0 0).2.2
        = [emptyResponseMsg] := by
  refine ⟨rfl, ?_, ?_, ?_⟩
  · exact ((claimC3_empty_response c3State false none (ModelResult.ok none) 0 0 0 c3Req
      (Or.inl rfl) rfl).1).trans rfl
  · exact (claimC3_empty_response c3State false none (ModelResult.ok none) 0 0 0 c3Req
      (Or.inl rfl) rfl).2.2.2.1
  · exact (claimC3_empty_response c3State false none (ModelResult.ok none) 0 0 0 c3Req
      (Or.inl rfl) rfl).2.2.2.2

/-- C4 witness -/
theorem claimC4_witness :
    (handleFileSelect c3State { mimeType := "audio/mpeg", base64Data := "QUJD" }
        (ModelResult.fail ("boom")) (ModelResult.ok none) 0 0 0).2.1
      = some { modelName := "gemini-2.5-pro", mimeType := "audio/mpeg",
               base64Data := "QUJD", promptText := transcribePromptText }
    ∧ handleFileSelect c3State { mimeType := "text/plain", base64Data := "QUJD" }
        (ModelResult.fail ("boom")) (ModelResult.ok none) 0 0 0
      = (c3State, none, none,
          ["Unsupported file type: text/plain. Please upload an MP3 or M4A file."])
    ∧ handleGenerate { c3State with sourceText := some "" } false none
        (ModelResult.ok none) 0 0 0
      = ({ c3State with sourceText := some "" }, none, [validationMsg]) := by
  refine ⟨?_, ?_, ?_⟩
  · exact (claimC4_validation c3State { mimeType := "audio/mpeg", base64Data := "QUJD" }
      (ModelResult.fail ("boom")) (ModelResult.ok none) 0 0 0 (ModelResult.ok none)).1
      (by decide)
  · exact ((claimC4_validation c3State { mimeType := "text/plain", base64Data := "QUJD" }
      (ModelResult.fail ("boom")) (ModelResult.ok none) 0 0 0 (ModelResult.ok none)).2.1
      (by decide)).trans rfl
  · exact (claimC4_validation { c3State with sourceText := some "" }
      { mimeType := "text/plain", base64Data := "QUJD" }
      (ModelResult.fail ("boom")) (ModelResult.ok none) 0 0 0 (ModelResult.ok none)).2.2 rfl

theorem goodGen_gi1 : GoodGen gi1 := ⟨by decide, "<h1>A</h1>", rfl, by decide⟩

theorem goodGen_gi2 : GoodGen gi2 := ⟨by decide, "<h1>B</h1>", rfl, by decide⟩

theorem claimC5_witness :
    (generateMany (initialAppState none) [gi1, gi2]).library
      = [createdEntry ("General Summary") ("") ("Modern Scholar") gi2,
         createdEntry ("General Summary") ("") ("Modern Scholar") gi1]
    ∧ (generateMany (initialAppState none) [gi1, gi2]).library.head?
      = some (createdEntry ("General Summary") ("") ("Modern Scholar") gi2) := by
  have hgood : ∀ x ∈ [gi1, gi2], GoodGen x := by
    intro x hx
    simp only [List.mem_cons, List.not_mem_nil, or_false] at hx
    rcases hx with rfl | rfl
    · exact goodGen_gi1
    · exact goodGen_gi2
  refine ⟨((claimC5_library_order (initialAppState none) [gi1, gi2] hgood).1).trans rfl, ?_⟩
  exact ((claimC5_library_order (initialAppState none) [gi1, gi2] hgood).2
    (List.cons_ne_nil _ _)).trans rfl

/-- C10 witness -/
theorem claimC10_witness :
    (generateMany (initialAppState none) [gi1, gi2]).library.map LibraryEntry.id
      = [toISOString 1000, toISOString 1000] := by
  exact ((claimC10_id_semantics (initialAppState none) gi1 gi2 sampleRefine sampleEntry
    ("h") ("h")).2.1 goodGen_gi1 goodGen_gi2 rfl).trans rfl

theorem hexVal_hexDigitChar : ∀ n < 16, hexVal (hexDigitChar n) = some n := by decide

theorem char_ofNat_toNat (c : Char) : Char.ofNat c.toNat = c :=
  Char.ofNat_toNat c

theorem psb_cons (c : Char) (rest : List Char) :
    parseStringBody (c :: rest) =
      if c = '"' then some ([], rest)
      else if c = '\\' then
        match rest with
        | [] => none
        | e :: rest2 =>
          if e = '"' then (parseStringBody rest2).map (fun p => ('"' :: p.1, p.2))
          else if e = '\\' then (parseStringBody rest2).map (fun p => ('\\' :: p.1, p.2))
          else if e = '/' then (parseStringBody rest2).map (fun p => ('/' :: p.1, p.2))
          else if e = 'b' then (parseStringBody rest2).map (fun p => ('\x08' :: p.1, p.2))
          else if e = 'f' then (parseStringBody rest2).map (fun p => ('\x0c' :: p.1, p.2))
          else if e = 'n' then (parseStringBody rest2).map (fun p => ('\n' :: p.1, p.2))
          else if e = 'r' then (parseStringBody rest2).map (fun p => ('\r' :: p.1, p.2))
          else if e = 't' then (parseStringBody rest2).map (fun p => ('\t' :: p.1, p.2))
          else if e = 'u' then
            match rest2 with
            | h1 :: h2 :: h3 :: h4 :: rest3 =>
              match hexVal h1, hexVal h2, hexVal h3, hexVal h4 with
              | some a, some b, some c2, some d =>
                (parseStringBody rest3).map
                  (fun p => (Char.ofNat (4096 * a + 256 * b + 16 * c2 + d) :: p.1, p.2))
              | _, _, _, _ => none
            | _ => none
          else none
      else if c.toNat < 32 then none
      else (parseStringBody rest).map (fun p => (c :: p.1, p.2)) := by
  rw [parseStringBody.eq_def]

theorem psb_quote (r : List Char) : parseStringBody ('"' :: r) = some ([], r) := by
  rw [psb_cons]
  rfl

theorem psb_esc (e : Char) (rest2 : List Char) :
    parseStringBody ('\\' :: e :: rest2) =
      if e = '"' then (parseStringBody rest2).map (fun p => ('"' :: p.1, p.2))
      else if e = '\\' then (parseStringBody rest2).map (fun p => ('\\' :: p.1, p.2))
      else if e = '/' then (parseStringBody rest2).map (fun p => ('/' :: p.1, p.2))
      else if e = 'b' then (parseStringBody rest2).map (fun p => ('\x08' :: p.1, p.2))
      else if e = 'f' then (parseStringBody rest2).map (fun p => ('\x0c' :: p.1, p.2))
      else if e = 'n' then (parseStringBody rest2).map (fun p => ('\n' :: p.1, p.2))
      else if e = 'r' then (parseStringBody rest2).map (fun p => ('\r' :: p.1, p.2))
      else if e = 't' then (parseStringBody rest2).map (fun p => ('\t' :: p.1, p.2))
      else if e = 'u' then
        match rest2 with
        | h1 :: h2 :: h3 :: h4 :: rest3 =>
          match hexVal h1, hexVal h2, hexVal h3, hexVal h4 with
          | some a, some b, some c2, some d =>
            (parseStringBody rest3).map
              (fun p => (Char.ofNat (4096 * a + 256 * b + 16 * c2 + d) :: p.1, p.2))
          | _, _, _, _ => none
        | _ => none
      else none := by
  rw [psb_cons]
  rfl

theorem psb_plain (c : Char) (r : List Char) (h1 : ¬ c = '"') (h2 : ¬ c = '\\')
    (h3 : ¬ c.toNat < 32) :
    parseStringBody (c :: r) = (parseStringBody r).map (fun p => (c :: p.1, p.2)) := by
  rw [psb_cons, if_neg h1, if_neg h2, if_neg h3]

theorem parseStringBody_escape (t rest : List Char) :
    parseStringBody (escapeString t ++ ('"' :: rest)) = some (t, rest) := by
  induction t with
  | nil => exact psb_quote rest
  | cons c cs ih =>
    simp only [escapeString, List.append_assoc]
    unfold escapeChar
    split_ifs with h1 h2 h3 h4 h5 h6 h7 h8
    · subst h1
      simp only [List.cons_append, List.nil_append]
      rw [psb_esc]
      rw [if_pos rfl, ih]
      rfl
    · subst h2
      simp only [List.cons_append, List.nil_append]
      rw [psb_esc]
      rw [if_neg (by decide), if_pos rfl, ih]
      rfl
    · subst h3
      simp only [List.cons_append, List.nil_append]
      rw [psb_esc]
      rw [if_neg (by decide), if_neg (by decide), if_neg (by decide), if_pos rfl, ih]
      rfl
    · subst h4
      simp only [List.cons_append, List.nil_append]
      rw [psb_esc]
      rw [if_neg (by decide), if_neg (by decide), if_neg (by decide), if_neg (by decide),
        if_neg (by decide), if_neg (by decide), if_neg (by decide), if_pos rfl, ih]
      rfl
    · subst h5
      simp only [List.cons_append, List.nil_append]
      rw [psb_esc]
      rw [if_neg (by decide), if_neg (by decide), if_neg (by decide), if_neg (by decide),
        if_neg (by decide), if_pos rfl, ih]
      rfl
    · subst h6
      simp only [List.cons_append, List.nil_append]
      rw [psb_esc]
      rw [if_neg (by decide), if_neg (by decide), if_neg (by decide), if_neg (by decide),
        if_pos rfl, ih]
      rfl
    · subst h7
      simp only [List.cons_append, List.nil_append]
      rw [psb_esc]
      rw [if_neg (by decide), if_neg (by decide), if_neg (by decide), if_neg (by decide),
        if_neg (by decide), if_neg (by decide), if_pos rfl, ih]
      rfl
    · have hv1 : hexVal (hexDigitChar (c.toNat / 16)) = some (c.toNat / 16) :=
        hexVal_hexDigitChar _ (by omega)
      have hv2 : hexVal (hexDigitChar (c.toNat % 16)) = some (c.toNat % 16) :=
        hexVal_hexDigitChar _ (by omega)
      have hch : Char.ofNat (4096 * 0 + 256 * 0 + 16 * (c.toNat / 16) + c.toNat % 16) = c := by
        have harith : 4096 * 0 + 256 * 0 + 16 * (c.toNat / 16) + c.toNat % 16 = c.toNat := by
          omega
        rw [harith, char_ofNat_toNat]
      simp only [List.cons_append, List.nil_append]
      rw [psb_esc]
      rw [if_neg (by decide), if_neg (by decide), if_neg (by decide), if_neg (by decide),
        if_neg (by decide), if_neg (by decide), if_neg (by decide), if_neg (by decide),
        if_pos rfl]
      show (match hexVal '0', hexVal '0', hexVal (hexDigitChar (c.toNat / 16)),
          hexVal (hexDigitChar (c.toNat % 16)) with
        | some a, some b, some c2, some d =>
          (parseStringBody (escapeString cs ++ '"' :: rest)).map
            (fun p => (Char.ofNat (4096 * a + 256 * b + 16 * c2 + d) :: p.1, p.2))
        | _, _, _, _ => none) = some (c :: cs, rest)
      rw [hv1, hv2]
      show (parseStringBody (escapeString cs ++ '"' :: rest)).map
          (fun p => (Char.ofNat (4096 * 0 + 256 * 0 + 16 * (c.toNat / 16) + c.toNat % 16)
            :: p.1, p.2)) = some (c :: cs, rest)
      rw [ih, hch]
      rfl
    · simp only [List.cons_append, List.nil_append]
      rw [psb_plain c _ h1 h2 h8, ih]
      rfl

theorem pc_value (fuel : Nat) (s : List Char) :
    parseCore (fuel+1) JMode.value s =
      match skipWs s with
      | [] => none
      | c :: rest =>
        if c = '"' then (parseStringBody rest).map (fun p => (JValue.jstr p.1, p.2))
        else if c = '[' then
          match skipWs rest with
          | [] => parseCore fuel JMode.items rest
          | d :: r2 =>
            if d = ']' then some (JValue.jarr [], r2) else parseCore fuel JMode.items rest
        else if c = '\x7b' then
          match skipWs rest with
          | [] => parseCore fuel JMode.members rest
          | d :: r2 =>
            if d = '\x7d' then some (JValue.jobj [], r2)
            else parseCore fuel JMode.members rest
        else none := rfl

theorem pc_items (fuel : Nat) (s : List Char) :
    parseCore (fuel+1) JMode.items s =
      match parseCore fuel JMode.value s with
      | none => none
      | some (v, r) =>
        match skipWs r with
        | [] => none
        | d :: r2 =>
          if d = ']' then some (JValue.jarr [v], r2)
          else if d = ',' then
            match parseCore fuel JMode.items r2 with
            | some (JValue.jarr vs, r3) => some (JValue.jarr (v :: vs), r3)
            | _ => none
          else none := rfl

theorem pc_members (fuel : Nat) (s : List Char) :
    parseCore (fuel+1) JMode.members s =
      match skipWs s with
      | [] => none
      | c :: rest =>
        if c = '"' then
          match parseStringBody rest with
          | none => none
          | some (k, r) =>
            match skipWs r with
            | [] => none
            | d :: r2 =>
              if d = ':' then
                match parseCore fuel JMode.value r2 with
                | none => none
                | some (v, r3) =>
                  match skipWs r3 with
                  | [] => none
                  | d2 :: r4 =>
                    if d2 = '\x7d' then some (JValue.jobj [(k, v)], r4)
                    else if d2 = ',' then
                      match parseCore fuel JMode.members r4 with
                      | some (JValue.jobj kvs, r5) => some (JValue.jobj ((k, v) :: kvs), r5)
                      | _ => none
                    else none
              else none
        else none := rfl

theorem parseCore_mono : ∀ (fuel : Nat) (mode : JMode) (s : List Char)
    (r : JValue × List Char),
    parseCore fuel mode s = some r → parseCore (fuel+1) mode s = some r := by
  intro fuel
  induction fuel with
  | zero => intro mode s r h; exact Option.noConfusion h
  | succ f ih =>
    intro mode s r h
    cases mode with
    | value =>
      rw [pc_value] at h ⊢
      cases hs : skipWs s with
      | nil => rw [hs] at h; exact absurd h (by simp)
      | cons c rest =>
        rw [hs] at h
        dsimp only at h ⊢
        by_cases h1 : c = '"'
        · rw [if_pos h1] at h ⊢; exact h
        · rw [if_neg h1] at h ⊢
          by_cases h2 : c = '['
          · rw [if_pos h2] at h ⊢
            cases hr : skipWs rest with
            | nil =>
              rw [hr] at h
              dsimp only at h ⊢
              exact ih _ _ _ h
            | cons d r2 =>
              rw [hr] at h
              dsimp only at h ⊢
              by_cases hd : d = ']'
              · rw [if_pos hd] at h ⊢; exact h
              · rw [if_neg hd] at h ⊢; exact ih _ _ _ h
          · rw [if_neg h2] at h ⊢
            by_cases h3 : c = '\x7b'
            · rw [if_pos h3] at h ⊢
              cases hr : skipWs rest with
              | nil =>
                rw [hr] at h
                dsimp only at h ⊢
                exact ih _ _ _ h
              | cons d r2 =>
                rw [hr] at h
                dsimp only at h ⊢
                by_cases hd : d = '\x7d'
                · rw [if_pos hd] at h ⊢; exact h
                · rw [if_neg hd] at h ⊢; exact ih _ _ _ h
            · rw [if_neg h3] at h ⊢; exact h
    | items =>
      rw [pc_items] at h ⊢
      cases hv : parseCore f JMode.value s with
      | none => rw [hv] at h; exact absurd h (by simp)
      | some vr =>
        rw [hv] at h
        rw [ih _ _ _ hv]
        obtain ⟨v, r1⟩ := vr
        dsimp only at h ⊢
        cases hr : skipWs r1 with
        | nil => rw [hr] at h; exact absurd h (by simp)
        | cons d r2 =>
          rw [hr] at h
          dsimp only at h ⊢
          by_cases hd : d = ']'
          · rw [if_pos hd] at h ⊢; exact h
          · rw [if_neg hd] at h ⊢
            by_cases hc : d = ','
            · rw [if_pos hc] at h ⊢
              cases hi : parseCore f JMode.items r2 with
              | none => rw [hi] at h; exact absurd h (by simp)
              | some ir =>
                rw [hi] at h
                rw [ih _ _ _ hi]
                exact h
            · rw [if_neg hc] at h ⊢; exact h
    | members =>
      rw [pc_members] at h ⊢
      cases hs : skipWs s with
      | nil => rw [hs] at h; exact absurd h (by simp)
      | cons c rest =>
        rw [hs] at h
        dsimp only at h ⊢
        by_cases h1 : c = '"'
        · rw [if_pos h1] at h ⊢
          cases hk : parseStringBody rest with
          | none => rw [hk] at h; exact absurd h (by simp)
          | some kr =>
            rw [hk] at h
            obtain ⟨k, r1⟩ := kr
            dsimp only at h ⊢
            cases hr : skipWs r1 with
            | nil => rw [hr] at h; exact absurd h (by simp)
            | cons d r2 =>
              rw [hr] at h
              dsimp only at h ⊢
              by_cases hd : d = ':'
              · rw [if_pos hd] at h ⊢
                cases hv : parseCore f JMode.value r2 with
                | none => rw [hv] at h; exact absurd h (by simp)
                | some vr =>
                  rw [hv] at h
                  rw [ih _ _ _ hv]
                  obtain ⟨v, r3⟩ := vr
                  dsimp only at h ⊢
                  cases hr3 : skipWs r3 with
                  | nil => rw [hr3] at h; exact absurd h (by simp)
                  | cons d2 r4 =>
                    rw [hr3] at h
                    dsimp only at h ⊢
                    by_cases hd2 : d2 = '\x7d'
                    · rw [if_pos hd2] at h ⊢; exact h
                    · rw [if_neg hd2] at h ⊢
                      by_cases hc2 : d2 = ','
                      · rw [if_pos hc2] at h ⊢
                        cases hm : parseCore f JMode.members r4 with
                        | none => rw [hm] at h; exact absurd h (by simp)
                        | some mr =>
                          rw [hm] at h
                          rw [ih _ _ _ hm]
                          exact h
                      · rw [if_neg hc2] at h ⊢; exact h
              · rw [if_neg hd] at h ⊢; exact h
        · rw [if_neg h1] at h ⊢; exact h

theorem parseCore_mono_le (fuel fuel' : Nat) (mode : JMode) (s : List Char)
    (r : JValue × List Char) (hle : fuel ≤ fuel')
    (h : parseCore fuel mode s = some r) : parseCore fuel' mode s = some r := by
  induction hle with
  | refl => exact h
  | step _ ih => exact parseCore_mono _ _ _ _ ih

theorem parseCore_printString (t rest : List Char) (fuel : Nat) (hf : 1 ≤ fuel) :
    parseCore fuel JMode.value (printString t ++ rest) = some (JValue.jstr t, rest) := by
  obtain ⟨f, rfl⟩ : ∃ f, fuel = f + 1 := ⟨fuel - 1, by omega⟩
  have hx : (escapeString t ++ ['"']) ++ rest = escapeString t ++ ('"' :: rest) := by simp
  show (parseStringBody ((escapeString t ++ ['"']) ++ rest)).map
      (fun p => (JValue.jstr p.1, p.2)) = some (JValue.jstr t, rest)
  rw [hx, parseStringBody_escape]
  rfl

theorem parseCore_items_strings : ∀ (xs : List String) (fuel : Nat) (rest : List Char),
    xs ≠ [] → 2 * xs.length ≤ fuel →
    parseCore fuel JMode.items (commaSepStrings xs ++ (']' :: rest))
      = some (JValue.jarr (xs.map jStrOf), rest) := by
  intro xs
  induction xs with
  | nil => intro fuel rest hne _; exact absurd rfl hne
  | cons x t ih =>
    intro fuel rest _ hf
    have hpos : 1 ≤ fuel := by
      simp only [List.length_cons] at hf
      omega
    obtain ⟨f, rfl⟩ : ∃ f, fuel = f + 1 := ⟨fuel - 1, by omega⟩
    rw [pc_items]
    cases t with
    | nil =>
      have hv : parseCore f JMode.value (printString x.data ++ (']' :: rest))
          = some (JValue.jstr x.data, ']' :: rest) :=
        parseCore_printString _ _ _ (by
          simp only [List.length_cons, List.length_nil] at hf
          omega)
      rw [show commaSepStrings [x] ++ (']' :: rest)
          = printString x.data ++ (']' :: rest) from rfl]
      rw [hv]
      rfl
    | cons y t2 =>
      have hlist : commaSepStrings (x :: y :: t2) ++ (']' :: rest)
          = printString x.data ++ (',' :: (commaSepStrings (y :: t2) ++ (']' :: rest))) := by
        simp [commaSepStrings]
      rw [hlist]
      have hv := parseCore_printString x.data
        (',' :: (commaSepStrings (y :: t2) ++ (']' :: rest))) f (by
          simp only [List.length_cons, List.length_nil] at hf
          omega)
      rw [hv]
      have hi := ih f rest (by simp) (by
        simp only [List.length_cons, List.length_nil] at hf ⊢
        omega)
      show (match parseCore f JMode.items (commaSepStrings (y :: t2) ++ (']' :: rest)) with
        | some (JValue.jarr vs, r3) => some (JValue.jarr (JValue.jstr x.data :: vs), r3)
        | _ => none) = some (JValue.jarr ((x :: y :: t2).map jStrOf), rest)
      rw [hi]
      rfl

theorem pc_value_arr_str (f : Nat) (tail rest' : List Char) :
    parseCore (f+1) JMode.value ('[' :: (('"' :: tail) ++ rest'))
      = parseCore f JMode.items (('"' :: tail) ++ rest') := rfl

theorem pc_value_arr_obj (f : Nat) (tail rest' : List Char) :
    parseCore (f+1) JMode.value ('[' :: (('\x7b' :: tail) ++ rest'))
      = parseCore f JMode.items (('\x7b' :: tail) ++ rest') := rfl

theorem parseCore_printStrArray (xs : List String) (fuel : Nat) (rest : List Char)
    (hf : 2 * xs.length + 2 ≤ fuel) :
    parseCore fuel JMode.value (printStrArray xs ++ rest)
      = some (JValue.jarr (xs.map jStrOf), rest) := by
  have hpos : 1 ≤ fuel := by omega
  obtain ⟨f, rfl⟩ : ∃ f, fuel = f + 1 := ⟨fuel - 1, by omega⟩
  cases xs with
  | nil => rfl
  | cons x t =>
    obtain ⟨tail, htail⟩ : ∃ tail, commaSepStrings (x :: t) = '"' :: tail := by
      cases t <;> exact ⟨_, rfl⟩
    have hshape : printStrArray (x :: t) ++ rest
        = '[' :: (commaSepStrings (x :: t) ++ (']' :: rest)) := by
      simp [printStrArray]
    rw [hshape, htail, pc_value_arr_str, ← htail]
    exact parseCore_items_strings (x :: t) f rest (by simp) (by
      simp only [List.length_cons, List.length_nil] at hf ⊢
      omega)

theorem parseCore_members_cons (fuel : Nat) (k : List Char) (vpr : List Char) (vv : JValue)
    (more r : List Char) (kvs : List (List Char × JValue))
    (hv : parseCore fuel JMode.value (vpr ++ (',' :: more)) = some (vv, ',' :: more))
    (hm : parseCore fuel JMode.members more = some (JValue.jobj kvs, r)) :
    parseCore (fuel + 1) JMode.members (printString k ++ (':' :: (vpr ++ (',' :: more))))
      = some (JValue.jobj ((k, vv) :: kvs), r) := by
  have hx : (escapeString k ++ ['"']) ++ (':' :: (vpr ++ (',' :: more)))
      = escapeString k ++ ('"' :: (':' :: (vpr ++ (',' :: more)))) := by simp
  show (match parseStringBody ((escapeString k ++ ['"']) ++ (':' :: (vpr ++ (',' :: more)))) with
    | none => none
    | some (k2, r1) =>
      match skipWs r1 with
      | [] => none
      | d :: r2 =>
        if d = ':' then
          match parseCore fuel JMode.value r2 with
          | none => none
          | some (v, r3) =>
            match skipWs r3 with
            | [] => none
            | d2 :: r4 =>
              if d2 = '\x7d' then some (JValue.jobj [(k2, v)], r4)
              else if d2 = ',' then
                match parseCore fuel JMode.members r4 with
                | some (JValue.jobj kvs2, r5) => some (JValue.jobj ((k2, v) :: kvs2), r5)
                | _ => none
              else none
        else none) = some (JValue.jobj ((k, vv) :: kvs), r)
  rw [hx, parseStringBody_escape]
  show (match parseCore fuel JMode.value (vpr ++ (',' :: more)) with
    | none => none
    | some (v, r3) =>
      match skipWs r3 with
      | [] => none
      | d2 :: r4 =>
        if d2 = '\x7d' then some (JValue.jobj [(k, v)], r4)
        else if d2 = ',' then
          match parseCore fuel JMode.members r4 with
          | some (JValue.jobj kvs2, r5) => some (JValue.jobj ((k, v) :: kvs2), r5)
          | _ => none
        else none) = some (JValue.jobj ((k, vv) :: kvs), r)
  rw [hv]
  show (match parseCore fuel JMode.members more with
    | some (JValue.jobj kvs2, r5) => some (JValue.jobj ((k, vv) :: kvs2), r5)
    | _ => none) = some (JValue.jobj ((k, vv) :: kvs), r)
  rw [hm]

theorem parseCore_members_last (fuel : Nat) (k : List Char) (vpr : List Char) (vv : JValue)
    (r : List Char)
    (hv : parseCore fuel JMode.value (vpr ++ ('\x7d' :: r)) = some (vv, '\x7d' :: r)) :
    parseCore (fuel + 1) JMode.members (printString k ++ (':' :: (vpr ++ ('\x7d' :: r))))
      = some (JValue.jobj [(k, vv)], r) := by
  have hx : (escapeString k ++ ['"']) ++ (':' :: (vpr ++ ('\x7d' :: r)))
      = escapeString k ++ ('"' :: (':' :: (vpr ++ ('\x7d' :: r)))) := by simp
  show (match parseStringBody ((escapeString k ++ ['"']) ++ (':' :: (vpr ++ ('\x7d' :: r)))) with
    | none => none
    | some (k2, r1) =>
      match skipWs r1 with
      | [] => none
      | d :: r2 =>
        if d = ':' then
          match parseCore fuel JMode.value r2 with
          | none => none
          | some (v, r3) =>
            match skipWs r3 with
            | [] => none
            | d2 :: r4 =>
              if d2 = '\x7d' then some (JValue.jobj [(k2, v)], r4)
              else if d2 = ',' then
                match parseCore fuel JMode.members r4 with
                | some (JValue.jobj kvs2, r5) => some (JValue.jobj ((k2, v) :: kvs2), r5)
                | _ => none
              else none
        else none) = some (JValue.jobj [(k, vv)], r)
  rw [hx, parseStringBody_escape]
  show (match parseCore fuel JMode.value (vpr ++ ('\x7d' :: r)) with
    | none => none
    | some (v, r3) =>
      match skipWs r3 with
      | [] => none
      | d2 :: r4 =>
        if d2 = '\x7d' then some (JValue.jobj [(k, v)], r4)
        else if d2 = ',' then
          match parseCore fuel JMode.members r4 with
          | some (JValue.jobj kvs2, r5) => some (JValue.jobj ((k, v) :: kvs2), r5)
          | _ => none
        else none) = some (JValue.jobj [(k, vv)], r)
  rw [hv]
  rfl

theorem pc_value_obj (fuel : Nat) (k : List Char) (X : List Char)
    (res : JValue × List Char)
    (hm : parseCore fuel JMode.members (printString k ++ X) = some res) :
    parseCore (fuel+1) JMode.value ('\x7b' :: (printString k ++ X)) = some res := by
  show parseCore fuel JMode.members (printString k ++ X) = some res
  exact hm

theorem parseCore_printEntry (e : LibraryEntry) (fuel : Nat) (rest : List Char)
    (hf : entryNeed e ≤ fuel) :
    parseCore fuel JMode.value (printEntry e ++ rest) = some (jEntry e, rest) := by
  have B0 : parseCore (2 * e.refinementHistory.length + 2) JMode.value
      (printStrArray e.refinementHistory ++ ('\x7d' :: rest))
      = some (JValue.jarr (e.refinementHistory.map jStrOf), '\x7d' :: rest) :=
    parseCore_printStrArray _ _ _ (by omega)
  have B1 := parseCore_members_last (2 * e.refinementHistory.length + 2)
    (("refinementHistory").data) _ _ _ B0
  have B2 := parseCore_members_cons (2 * e.refinementHistory.length + 2 + 1)
    (("createdAt").data) _ _ _ _ _
    (parseCore_printString e.createdAt.data _ (2 * e.refinementHistory.length + 2 + 1)
      (by omega)) B1
  have B3 := parseCore_members_cons (2 * e.refinementHistory.length + 2 + 2)
    (("visualTheme").data) _ _ _ _ _
    (parseCore_printString e.visualTheme.data _ (2 * e.refinementHistory.length + 2 + 2)
      (by omega)) B2
  have B4 := parseCore_members_cons (2 * e.refinementHistory.length + 2 + 3)
    (("customDirectives").data) _ _ _ _ _
    (parseCore_printString e.customDirectives.data _ (2 * e.refinementHistory.length + 2 + 3)
      (by omega)) B3
  have B5 := parseCore_members_cons (2 * e.refinementHistory.length + 2 + 4)
    (("analysisLens").data) _ _ _ _ _
    (parseCore_printString e.analysisLens.data _ (2 * e.refinementHistory.length + 2 + 4)
      (by omega)) B4
  have B6 := parseCore_members_cons (2 * e.refinementHistory.length + 2 + 5)
    (("infographicHtml").data) _ _ _ _ _
    (parseCore_printString e.infographicHtml.data _ (2 * e.refinementHistory.length + 2 + 5)
      (by omega)) B5
  have B7 := parseCore_members_cons (2 * e.refinementHistory.length + 2 + 6)
    (("sourceText").data) _ _ _ _ _
    (parseCore_printString e.sourceText.data _ (2 * e.refinementHistory.length + 2 + 6)
      (by omega)) B6
  have B8 := parseCore_members_cons (2 * e.refinementHistory.length + 2 + 7)
    (("title").data) _ _ _ _ _
    (parseCore_printString e.title.data _ (2 * e.refinementHistory.length + 2 + 7)
      (by omega)) B7
  have B9 := parseCore_members_cons (2 * e.refinementHistory.length + 2 + 8)
    (("id").data) _ _ _ _ _
    (parseCore_printString e.id.data _ (2 * e.refinementHistory.length + 2 + 8)
      (by omega)) B8
  have B10 := pc_value_obj (2 * e.refinementHistory.length + 2 + 9) (("id").data) _ _ B9
  have hshape : printEntry e ++ rest
      = '\x7b' :: (printString (("id")).data ++ (':' :: (printString e.id.data ++ (',' ::
        (printString (("title")).data ++ (':' :: (printString e.title.data ++ (',' ::
        (printString (("sourceText")).data ++ (':' :: (printString e.sourceText.data ++ (',' ::
        (printString (("infographicHtml")).data ++ (':' ::
          (printString e.infographicHtml.data ++ (',' ::
        (printString (("analysisLens")).data ++ (':' ::
          (printString e.analysisLens.data ++ (',' ::
        (printString (("customDirectives")).data ++ (':' ::
          (printString e.customDirectives.data ++ (',' ::
        (printString (("visualTheme")).data ++ (':' :: (printString e.visualTheme.data ++ (',' ::
        (printString (("createdAt")).data ++ (':' :: (printString e.createdAt.data ++ (',' ::
        (printString (("refinementHistory")).data ++ (':' ::
          (printStrArray e.refinementHistory
            ++ ('\x7d' :: rest)))))))))))))))))))))))))))))))))))) := by
    simp [printEntry, printMemberStr, List.append_assoc]
  rw [hshape]
  exact parseCore_mono_le _ _ _ _ _ (by simp only [entryNeed] at hf; omega) B10

theorem parseCore_items_entries : ∀ (l : List LibraryEntry) (fuel : Nat) (rest : List Char),
    l ≠ [] → entriesNeed l ≤ fuel →
    parseCore fuel JMode.items (commaSepEntries l ++ (']' :: rest))
      = some (JValue.jarr (l.map jEntry), rest) := by
  intro l
  induction l with
  | nil => intro fuel rest hne _; exact absurd rfl hne
  | cons e t ih =>
    intro fuel rest _ hf
    have hpos : 1 ≤ fuel := by
      simp only [entriesNeed] at hf
      omega
    obtain ⟨f, rfl⟩ : ∃ f, fuel = f + 1 := ⟨fuel - 1, by omega⟩
    rw [pc_items]
    cases t with
    | nil =>
      have hv : parseCore f JMode.value (printEntry e ++ (']' :: rest))
          = some (jEntry e, ']' :: rest) :=
        parseCore_printEntry _ _ _ (by
          simp only [entriesNeed] at hf
          omega)
      rw [show commaSepEntries [e] ++ (']' :: rest)
          = printEntry e ++ (']' :: rest) from rfl]
      rw [hv]
      rfl
    | cons e2 t2 =>
      have hlist : commaSepEntries (e :: e2 :: t2) ++ (']' :: rest)
          = printEntry e ++ (',' :: (commaSepEntries (e2 :: t2) ++ (']' :: rest))) := by
        simp [commaSepEntries]
      rw [hlist]
      have hv := parseCore_printEntry e
        (f) (',' :: (commaSepEntries (e2 :: t2) ++ (']' :: rest))) (by
          simp only [entriesNeed] at hf
          omega)
      rw [hv]
      have hi := ih f rest (by simp) (by
        simp only [entriesNeed] at hf ⊢
        omega)
      show (match parseCore f JMode.items (commaSepEntries (e2 :: t2) ++ (']' :: rest)) with
        | some (JValue.jarr vs, r3) => some (JValue.jarr (jEntry e :: vs), r3)
        | _ => none) = some (JValue.jarr ((e :: e2 :: t2).map jEntry), rest)
      rw [hi]
      rfl

theorem parseCore_printLibrary (l : List LibraryEntry) (fuel : Nat) (rest : List Char)
    (hf : entriesNeed l + 2 ≤ fuel) :
    parseCore fuel JMode.value (printLibrary l ++ rest) = some (jLibrary l, rest) := by
  have hpos : 1 ≤ fuel := by omega
  obtain ⟨f, rfl⟩ : ∃ f, fuel = f + 1 := ⟨fuel - 1, by omega⟩
  cases l with
  | nil => rfl
  | cons e t =>
    obtain ⟨tail, htail⟩ : ∃ tail, commaSepEntries (e :: t) = '\x7b' :: tail := by
      cases t <;> exact ⟨_, rfl⟩
    have hshape : printLibrary (e :: t) ++ rest
        = '[' :: (commaSepEntries (e :: t) ++ (']' :: rest)) := by
      simp [printLibrary]
    rw [hshape, htail, pc_value_arr_obj, ← htail]
    exact parseCore_items_entries (e :: t) f rest (by simp) (by omega)

theorem escapeChar_length (c : Char) : 1 ≤ (escapeChar c).length := by
  unfold escapeChar
  split_ifs <;> simp

theorem escapeString_length (t : List Char) : t.length ≤ (escapeString t).length := by
  induction t with
  | nil => simp [escapeString]
  | cons c cs ih =>
    have := escapeChar_length c
    simp only [escapeString, List.length_append, List.length_cons]
    omega

theorem printString_length (t : List Char) :
    (printString t).length = (escapeString t).length + 2 := by
  simp [printString]

theorem commaSepEntries_length (l : List LibraryEntry) :
    entriesNeed l ≤ (commaSepEntries l).length + 1 := by
  induction l with
  | nil => simp [entriesNeed, commaSepEntries]
  | cons e t ih =>
    have he : entryNeed e ≤ (printEntry e).length := by
      have h1 : 2 * e.refinementHistory.length ≤ (printStrArray e.refinementHistory).length := by
        have h2 : 2 * e.refinementHistory.length ≤ (commaSepStrings e.refinementHistory).length + 1 := by
          clear ih
          induction e.refinementHistory with
          | nil => simp [commaSepStrings]
          | cons x xs ihx =>
            cases xs with
            | nil =>
              have := escapeString_length x.data
              simp only [commaSepStrings, printString_length, List.length_cons,
                List.length_nil]
              omega
            | cons y ys =>
              have hx := escapeString_length x.data
              simp only [commaSepStrings, List.length_append, List.length_cons,
                printString_length] at ihx ⊢
              omega
        simp only [printStrArray, List.length_cons, List.length_append, List.length_nil]
        omega
      simp only [entryNeed, printEntry, printMemberStr, printString_length,
        List.length_cons, List.length_append, List.length_nil]
      have k1 := escapeString_length e.id.data
      have k2 := escapeString_length e.title.data
      omega
    cases t with
    | nil =>
      simp only [entriesNeed, commaSepEntries]
      omega
    | cons f t2 =>
      simp only [entriesNeed, commaSepEntries, List.length_append, List.length_cons] at ih ⊢
      omega

theorem parseJson_printLibrary (l : List LibraryEntry) :
    parseJson (printLibrary l) = some (jLibrary l) := by
  unfold parseJson
  have hcs : (printLibrary l).length = (commaSepEntries l).length + 2 := by
    simp [printLibrary]
  have hlen : entriesNeed l + 2 ≤ (printLibrary l).length + 1 := by
    have := commaSepEntries_length l
    omega
  have h := parseCore_printLibrary l ((printLibrary l).length + 1) [] hlen
  rw [List.append_nil] at h
  rw [h]
  rfl

theorem decodeStrings_map (l : List String) :
    decodeStrings (l.map jStrOf) = some l := by
  induction l with
  | nil => rfl
  | cons x t ih =>
    show (decodeStrings (t.map jStrOf)).map (fun l => String.mk x.data :: l) = some (x :: t)
    rw [ih]
    rfl

theorem decodeEntry_jEntry (e : LibraryEntry) : decodeEntry (jEntry e) = some e := by
  have heq : decodeEntry (jEntry e)
      = (decodeStrings (e.refinementHistory.map jStrOf)).map (fun h =>
          { id := e.id, title := e.title, sourceText := e.sourceText,
            infographicHtml := e.infographicHtml, analysisLens := e.analysisLens,
            customDirectives := e.customDirectives, visualTheme := e.visualTheme,
            createdAt := e.createdAt, refinementHistory := h }) := rfl
  rw [heq, decodeStrings_map]
  rfl

theorem decodeEntries_map (l : List LibraryEntry) :
    decodeEntries (l.map jEntry) = some l := by
  induction l with
  | nil => rfl
  | cons e t ih =>
    show (match decodeEntry (jEntry e), decodeEntries (t.map jEntry) with
      | some e2, some l2 => some (e2 :: l2)
      | _, _ => none) = some (e :: t)
    rw [decodeEntry_jEntry, ih]

theorem decodeLibraryJ_jLibrary (l : List LibraryEntry) :
    decodeLibraryJ (jLibrary l) = some l := by
  show decodeEntries (l.map jEntry) = some l
  exact decodeEntries_map l

/-- Claim C6: saving any library with `saveLibrary` and reloading it through the
startup path (`JSON.parse` of the persisted `JSON.stringify` text) yields exactly the
saved records: the serialization round-trip preserves every field of every record. -/
theorem claimC6_persistence_roundtrip (st : AppState) (l : List LibraryEntry) :
    (appStartup ((saveLibraryS st l).storage)).library = l := by
  show (appStartup (some (printLibrary l))).library = l
  unfold appStartup
  dsimp only
  rw [parseJson_printLibrary]
  dsimp only
  rw [decodeLibraryJ_jLibrary]

end Yedu
